import Mathlib

/-!
# Schematic selection tool (eeschema/tools/sch_selection_tool.cpp)

A shallow embedding of `SCH_SELECTION_TOOL`.  Items are referred to by pointer
(`ItemPtr`); the schematic, the frame and the view are read-only collaborators
of the tool and are gathered in `SCH_FRAME`; everything the tool mutates (the
per-item SELECTED / BRIGHTENED flags, the selection container, the modifier
state and the notifications it publishes) is gathered in `ToolState`.

Calls that only ask the view or the canvas to redraw (`getView()->Update`,
`ForceRefresh`, `SetAutoPan`, the rubber-band preview) do not touch that state
and are left out.
-/

set_option autoImplicit false
set_option linter.unusedVariables false

namespace SchSelection

/-! ## Data model -/

/-- Items are identified by their address. -/
abbrev ItemPtr := Nat

/-- The `KICAD_T` type tags the selection tool looks at (core/typeinfo.h). -/
inductive KICAD_T where
  | SCH_MARKER_T
  | SCH_JUNCTION_T
  | SCH_NO_CONNECT_T
  | SCH_BUS_WIRE_ENTRY_T
  | SCH_BUS_BUS_ENTRY_T
  | SCH_LINE_T
  | SCH_BITMAP_T
  | SCH_TEXT_T
  | SCH_LABEL_T
  | SCH_GLOBAL_LABEL_T
  | SCH_HIER_LABEL_T
  | SCH_FIELD_T
  | SCH_COMPONENT_T
  | SCH_SHEET_PIN_T
  | SCH_SHEET_T
  | SCH_PIN_T
  | SCH_LINE_LOCATE_WIRE_T
  | SCH_LINE_LOCATE_BUS_T
  | LIB_PART_T
  | LIB_PIN_T
  | LIB_FIELD_T
  | LIB_TEXT_T
  deriving DecidableEq, Repr

/-- Integer points (`VECTOR2I`, `wxPoint`). -/
structure VECTOR2I where
  x : Int
  y : Int
  deriving DecidableEq, Repr

/-- Value of a C `int` expression: two's complement wrap-around to 32 bits. -/
def int32 (z : Int) : Int := (z + 2147483648) % 4294967296 - 2147483648

/-- Axis-aligned box given by a corner and a size (`BOX2I`). -/
structure BOX2I where
  m_Pos : VECTOR2I
  m_Size : VECTOR2I
  deriving DecidableEq, Repr

/-- Rectangle handed to the items' hit test (`EDA_RECT`). -/
structure EDA_RECT where
  m_Pos : VECTOR2I
  m_Size : VECTOR2I
  deriving DecidableEq, Repr

/-- The two display states `highlight` / `unhighlight` are called with. -/
inductive HighlightMode where
  | SELECTED
  | BRIGHTENED
  deriving DecidableEq, Repr

/-- Notifications published through `m_toolMgr->ProcessEvent`. -/
inductive EVENTS where
  | SelectedEvent
  | UnselectedEvent
  | ClearedEvent
  deriving DecidableEq, Repr

/-- Requests the tool sends to its collaborators (`RunAction`, `InvokeTool`, the
context menu and the frame). -/
inductive ToolRequest where
  | highlightNet
  | clearHighlight
  | enterSheet
  | properties
  | selectionMenu (candidates : List ItemPtr)
  | invokeInteractiveEdit
  | showContextMenu
  | closeContextMenu
  | selectUnit (component : ItemPtr) (unit : Int)
  | unfoldBus
  deriving DecidableEq, Repr

/-- The schematic, the frame and the view as the selection tool sees them. None of
these is changed by the tool. -/
structure SCH_FRAME where
  /-- Result of `EDA_ITEM::Type()`. -/
  itemType : ItemPtr → KICAD_T
  /-- Result of `EDA_ITEM::GetParent()`, `none` for a null parent. -/
  GetParent : ItemPtr → Option ItemPtr
  /-- Result of `SCH_COMPONENT::GetPins()`. -/
  GetPins : ItemPtr → List ItemPtr
  /-- Result of `SCH_COMPONENT::GetFields( fields, false )`. -/
  GetFields : ItemPtr → List ItemPtr
  /-- Result of `SCH_SHEET::GetPins()`. -/
  GetSheetPins : ItemPtr → List ItemPtr
  /-- Result of `SCH_PIN::IsVisible()`. -/
  IsVisible : ItemPtr → Bool
  /-- Result of `EDA_ITEM::IsLocked()`. -/
  IsLocked : ItemPtr → Bool
  /-- Result of `m_frame->GetShowAllPins()`. -/
  GetShowAllPins : Bool
  /-- Result of `m_frame->GetToolId()`. -/
  GetToolId : Nat
  /-- The constant `ID_NO_TOOL_SELECTED`. -/
  ID_NO_TOOL_SELECTED : Nat
  /-- Whether `dynamic_cast<SCH_EDIT_FRAME*>( m_frame )` succeeds. -/
  isSchEditFrame : Bool
  /-- The list `SCH_COLLECTOR::AllItems`. -/
  AllItems : List KICAD_T
  /-- Result of `collector.Collect( start, aFilterList, aWhere, m_unit, m_convert )`. -/
  Collect : List KICAD_T → VECTOR2I → List ItemPtr
  /-- Result of `view->Query( selectionBox, selectedItems )`; an entry may be null. -/
  Query : BOX2I → List (Option ItemPtr)
  /-- Result of `item->HitTest( selectionRect, windowSelection )`. -/
  HitTest : ItemPtr → EDA_RECT → Bool → Bool
  /-- Result of `view->IsMirroredX()`. -/
  IsMirroredX : Bool
  /-- Result of `item->ViewBBox()`. -/
  ViewBBox : ItemPtr → BOX2I
  /-- Result of `getView()->ToWorld( v, false )`. -/
  ToWorld : VECTOR2I → VECTOR2I
  /-- The constant `MAX_SELECT_ITEM_IDS`. -/
  MAX_SELECT_ITEM_IDS : Nat
  /-- The constants `ID_POPUP_SCH_SELECT_UNIT_CMP`, `ID_POPUP_SCH_SELECT_UNIT_CMP_MAX`. -/
  ID_POPUP_SCH_SELECT_UNIT_CMP : Int
  ID_POPUP_SCH_SELECT_UNIT_CMP_MAX : Int
  /-- The constants `ID_POPUP_SCH_UNFOLD_BUS`, `ID_POPUP_SCH_UNFOLD_BUS_END`. -/
  ID_POPUP_SCH_UNFOLD_BUS : Int
  ID_POPUP_SCH_UNFOLD_BUS_END : Int
  /-- Result of `item->IsType( aFilterList )`. -/
  IsType : ItemPtr → List KICAD_T → Bool
  /-- Result of `getViewControls()->GetCursorPosition( aEnableSnapping )`. -/
  GetCursorPosition : Bool → VECTOR2I
  /-- The list walked by `for( item = GetScreen()->GetDrawItems(); item; item = item->Next() )`. -/
  GetDrawItems : List ItemPtr
  /-- Modelled from the spec: `SCH_SCREEN::ClearDrawingState` and `SCH_SCREEN::MarkConnections`
  (not among the sources) mark the items electrically connected to a seed segment;
  `IsCandidate line item` is `item->GetFlags() & CANDIDATE` after
  `ClearDrawingState(); MarkConnections( line );`. -/
  IsCandidate : ItemPtr → ItemPtr → Bool

/-- Modelled from the spec: the selection container `SELECTION` (include/tool/selection.h
is not among the sources) is an ordered, duplicate-free collection of item references
with a hover flag and an optional reference point. -/
structure SELECTION where
  m_items : List ItemPtr
  m_isHover : Bool
  m_referencePoint : Option VECTOR2I
  deriving DecidableEq, Repr

namespace SELECTION

/-- Modelled from the spec: `SELECTION::Add` inserts an item unless it is already present. -/
def Add (sel : SELECTION) (aItem : ItemPtr) : SELECTION :=
  if aItem ∈ sel.m_items then sel else { sel with m_items := sel.m_items ++ [aItem] }

/-- Modelled from the spec: `SELECTION::Remove` erases the entry of an item, if there is one. -/
def Remove (sel : SELECTION) (aItem : ItemPtr) : SELECTION :=
  { sel with m_items := sel.m_items.erase aItem }

/-- Modelled from the spec: `SELECTION::Empty`. -/
def Empty (sel : SELECTION) : Bool := sel.m_items.isEmpty

/-- Modelled from the spec: `SELECTION::GetSize`. -/
def GetSize (sel : SELECTION) : Nat := sel.m_items.length

/-- Modelled from the spec: `SELECTION::Front`, null on an empty selection. -/
def Front (sel : SELECTION) : Option ItemPtr := sel.m_items.head?

/-- Modelled from the spec: `SELECTION::GetItem( idx )` is the entry at position `idx` of the
ordered collection; `none` stands for a read outside of it. -/
def GetItem (sel : SELECTION) (idx : Nat) : Option ItemPtr := sel.m_items[idx]?

/-- Modelled from the spec: `SELECTION::Clear` drops the entries without touching the items. -/
def Clear (sel : SELECTION) : SELECTION := { sel with m_items := [] }

/-- Modelled from the spec: `SELECTION::SetIsHover`. -/
def SetIsHover (sel : SELECTION) (aIsHover : Bool) : SELECTION :=
  { sel with m_isHover := aIsHover }

/-- Modelled from the spec: `SELECTION::ClearReferencePoint`. -/
def ClearReferencePoint (sel : SELECTION) : SELECTION :=
  { sel with m_referencePoint := none }

end SELECTION

/-- Everything the selection tool mutates. -/
structure ToolState where
  /-- The SELECTED flag of every item (`IsSelected`). -/
  selectedFlag : ItemPtr → Bool
  /-- The BRIGHTENED flag of every item (`IsBrightened`). -/
  brightenedFlag : ItemPtr → Bool
  m_selection : SELECTION
  m_additive : Bool
  m_subtractive : Bool
  m_multiple : Bool
  m_skip_heuristics : Bool
  /-- Notifications published so far, oldest first. -/
  published : List EVENTS
  /-- Requests sent to collaborators so far, oldest first. -/
  requests : List ToolRequest

/-- Publish a notification (`m_toolMgr->ProcessEvent`). -/
def ProcessEvent (s : ToolState) (e : EVENTS) : ToolState :=
  { s with published := s.published ++ [e] }

/-- Record a request to a collaborator (`m_toolMgr->RunAction` and the like). -/
def RunAction (s : ToolState) (r : ToolRequest) : ToolState :=
  { s with requests := s.requests ++ [r] }

/-- The flag an `aMode` value stands for. -/
def modeFlag (s : ToolState) (aMode : HighlightMode) : ItemPtr → Bool :=
  match aMode with
  | .SELECTED => s.selectedFlag
  | .BRIGHTENED => s.brightenedFlag

/-- The statement `if( aMode == SELECTED ) x->SetSelected(); else if( aMode == BRIGHTENED )
x->SetBrightened();` -/
def setModeFlag (aMode : HighlightMode) (s : ToolState) (x : ItemPtr) : ToolState :=
  if aMode = .SELECTED then
    { s with selectedFlag := fun y => if y = x then true else s.selectedFlag y }
  else if aMode = .BRIGHTENED then
    { s with brightenedFlag := fun y => if y = x then true else s.brightenedFlag y }
  else s

/-- The statement `if( aMode == SELECTED ) x->ClearSelected(); else if( aMode == BRIGHTENED )
x->ClearBrightened();` -/
def clearModeFlag (aMode : HighlightMode) (s : ToolState) (x : ItemPtr) : ToolState :=
  if aMode = .SELECTED then
    { s with selectedFlag := fun y => if y = x then false else s.selectedFlag y }
  else if aMode = .BRIGHTENED then
    { s with brightenedFlag := fun y => if y = x then false else s.brightenedFlag y }
  else s

/-! ## Highlight propagation -/

/-- The method `SCH_SELECTION_TOOL::highlight`. `aGroup` is true when the call passes
`&m_selection` and false when it passes no group. -/
def highlight (d : SCH_FRAME) (s : ToolState) (aItem : ItemPtr) (aMode : HighlightMode)
    (aGroup : Bool) : ToolState :=
  let s1 := setModeFlag aMode s aItem
  let s2 := if aGroup then { s1 with m_selection := s1.m_selection.Add aItem } else s1
  if d.itemType aItem = .SCH_COMPONENT_T then
    let s3 := (d.GetPins aItem).foldl (setModeFlag aMode) s2
    (d.GetFields aItem).foldl (setModeFlag aMode) s3
  else if d.itemType aItem = .SCH_SHEET_T then
    (d.GetSheetPins aItem).foldl (setModeFlag aMode) s2
  else s2

/-- The method `SCH_SELECTION_TOOL::unhighlight`. -/
def unhighlight (d : SCH_FRAME) (s : ToolState) (aItem : ItemPtr) (aMode : HighlightMode)
    (aGroup : Bool) : ToolState :=
  let s1 := clearModeFlag aMode s aItem
  let s2 := if aGroup then { s1 with m_selection := s1.m_selection.Remove aItem } else s1
  if d.itemType aItem = .SCH_COMPONENT_T then
    let s3 := (d.GetPins aItem).foldl (clearModeFlag aMode) s2
    (d.GetFields aItem).foldl (clearModeFlag aMode) s3
  else if d.itemType aItem = .SCH_SHEET_T then
    (d.GetSheetPins aItem).foldl (clearModeFlag aMode) s2
  else s2

/-- The method `SCH_SELECTION_TOOL::select`. -/
def select (d : SCH_FRAME) (s : ToolState) (aItem : ItemPtr) : ToolState :=
  highlight d s aItem .SELECTED true

/-- The method `SCH_SELECTION_TOOL::unselect`. -/
def unselect (d : SCH_FRAME) (s : ToolState) (aItem : ItemPtr) : ToolState :=
  unhighlight d s aItem .SELECTED true

/-! ## Selectability and the mutation primitives -/

/-- The method `SCH_SELECTION_TOOL::selectable`. -/
def selectable (d : SCH_FRAME) (aItem : ItemPtr) (checkVisibilityOnly : Bool) : Bool :=
  match d.itemType aItem with
  | .SCH_PIN_T =>
    if !d.IsVisible aItem && !d.GetShowAllPins then false else true
  | .LIB_PART_T => false
  | .SCH_MARKER_T => true
  | _ => true

/-- The loop `while( m_selection.GetSize() ) unhighlight( m_selection.Front(), SELECTED,
&m_selection );` of `clearSelection`, with the number of its iterations. Every iteration
takes one entry out of the container, so its size is enough fuel. -/
def clearSelectionLoop (d : SCH_FRAME) : Nat → ToolState → ToolState × Nat
  | 0, s => (s, 0)
  | fuel + 1, s =>
    match s.m_selection.Front with
    | none => (s, 0)
    | some front =>
      let r := clearSelectionLoop d fuel (unhighlight d s front .SELECTED true)
      (r.1, r.2 + 1)

/-- The method `SCH_SELECTION_TOOL::clearSelection`. -/
def clearSelection (d : SCH_FRAME) (s : ToolState) : ToolState :=
  if s.m_selection.Empty then s
  else
    let s1 := (clearSelectionLoop d s.m_selection.GetSize s).1
    let s2 := { s1 with m_selection := s1.m_selection.SetIsHover false }
    let s3 := { s2 with m_selection := s2.m_selection.ClearReferencePoint }
    ProcessEvent s3 .ClearedEvent

/-- The method `SCH_SELECTION_TOOL::toggleSelection`. -/
def toggleSelection (d : SCH_FRAME) (s : ToolState) (aItem : ItemPtr) (aForce : Bool) :
    ToolState :=
  if s.selectedFlag aItem then
    ProcessEvent (unselect d s aItem) .UnselectedEvent
  else
    let s1 := if !s.m_additive then clearSelection d s else s
    if aForce || selectable d aItem false then
      ProcessEvent (select d s1 aItem) .SelectedEvent
    else s1

/-- The method `SCH_SELECTION_TOOL::AddItemToSel( EDA_ITEM*, bool )`; `none` is a null item. -/
def AddItemToSel (d : SCH_FRAME) (s : ToolState) (aItem : Option ItemPtr)
    (aQuietMode : Bool) : ToolState :=
  match aItem with
  | some item =>
    let s1 := select d s item
    if !aQuietMode then ProcessEvent s1 .SelectedEvent else s1
  | none => s

/-- The method `SCH_SELECTION_TOOL::AddItemsToSel( EDA_ITEMS*, bool )`; `none` is a null list. -/
def AddItemsToSel (d : SCH_FRAME) (s : ToolState) (aList : Option (List ItemPtr))
    (aQuietMode : Bool) : ToolState :=
  match aList with
  | some list =>
    let s1 := list.foldl (select d) s
    if !aQuietMode then ProcessEvent s1 .SelectedEvent else s1
  | none => s

/-- The method `SCH_SELECTION_TOOL::RemoveItemFromSel( EDA_ITEM*, bool )`. -/
def RemoveItemFromSel (d : SCH_FRAME) (s : ToolState) (aItem : Option ItemPtr)
    (aQuietMode : Bool) : ToolState :=
  match aItem with
  | some item =>
    let s1 := unselect d s item
    if !aQuietMode then ProcessEvent s1 .UnselectedEvent else s1
  | none => s

/-- The method `SCH_SELECTION_TOOL::RemoveItemsFromSel( EDA_ITEMS*, bool )`. -/
def RemoveItemsFromSel (d : SCH_FRAME) (s : ToolState) (aList : Option (List ItemPtr))
    (aQuietMode : Bool) : ToolState :=
  match aList with
  | some list =>
    let s1 := list.foldl (unselect d) s
    if !aQuietMode then ProcessEvent s1 .UnselectedEvent else s1
  | none => s

/-! ## Tool events -/

/-- Mouse buttons of a tool event. -/
inductive BUTTONS where
  | BUT_LEFT
  | BUT_RIGHT
  | BUT_MIDDLE
  deriving DecidableEq, Repr

/-- What a `TOOL_EVENT` is, as far as the selection tool tells events apart. A context-menu
update carries its command id; a context-menu choice may come without one. -/
inductive EventKind where
  | Click (b : BUTTONS)
  | DblClick (b : BUTTONS)
  | Drag (b : BUTTONS)
  | MouseUp (b : BUTTONS)
  | ContextMenuUpdate (id : Int)
  | ContextMenuChoice (id : Option Int)
  | ContextMenuClosed
  | CancelInteractive
  | Cancel
  | Activate
  | UndoRedoPre
  | Other
  deriving DecidableEq, Repr

/-- An event delivered by `Wait()`. -/
structure TOOL_EVENT where
  kind : EventKind
  MD_SHIFT : Bool
  MD_CTRL : Bool
  MD_ALT : Bool
  Position : VECTOR2I
  DragOrigin : VECTOR2I
  deriving DecidableEq, Repr

/-! ## Point selection -/

/-- The collector as `SelectPoint` uses it: the collected list and the flag the chooser sets
when it is dismissed. `m_List[i]?` is `collector[ i ]`, null outside the bounds. -/
structure SCH_COLLECTOR where
  m_List : List ItemPtr
  m_MenuCancelled : Bool
  deriving DecidableEq, Repr

/-- The method `SCH_SELECTION_TOOL::guessSelectionCandidates`, on the collector's list. -/
def guessSelectionCandidates (d : SCH_FRAME) (collector : List ItemPtr) (aWhere : VECTOR2I) :
    List ItemPtr :=
  match collector with
  | [a, b] =>
    if d.GetParent a = some b then collector.erase b
    else if some a = d.GetParent b then collector.erase a
    else if d.itemType a = .SCH_SHEET_T ∧ d.itemType b ≠ .SCH_SHEET_T then collector.erase a
    else if d.itemType b = .SCH_SHEET_T ∧ d.itemType a ≠ .SCH_SHEET_T then collector.erase b
    else collector
  | _ => collector

/-- The event loop of `doSelectionMenu`: the state, the item pointed at (`current`) and the
events left when the loop is over. `limit` is the number of menu entries. -/
def doSelectionMenuLoop (d : SCH_FRAME) (aCollector : List ItemPtr) (limit : Nat) :
    ToolState → Option ItemPtr → List TOOL_EVENT → ToolState × Option ItemPtr × List TOOL_EVENT
  | s, current, [] => (s, current, [])
  | s, current, evt :: rest =>
    match evt.kind with
    | .ContextMenuUpdate id =>
      let s1 := match current with
        | some c => unhighlight d s c .BRIGHTENED false
        | none => s
      if 0 < id ∧ id ≤ (limit : Int) then
        match aCollector[(id - 1).toNat]? with
        | some c => doSelectionMenuLoop d aCollector limit (highlight d s1 c .BRIGHTENED false)
            (some c) rest
        | none => doSelectionMenuLoop d aCollector limit s1 none rest
      else doSelectionMenuLoop d aCollector limit s1 none rest
    | .ContextMenuChoice id =>
      let s1 := match current with
        | some c => unhighlight d s c .BRIGHTENED false
        | none => s
      let chosen := match id with
        | some i => if 0 < i then aCollector[(i - 1).toNat]? else none
        | none => none
      (s1, chosen, rest)
    | _ => doSelectionMenuLoop d aCollector limit s current rest

/-- The method `SCH_SELECTION_TOOL::doSelectionMenu`: the new state, the collector's list
afterwards, the returned boolean and the events left. -/
def doSelectionMenu (d : SCH_FRAME) (s : ToolState) (aCollector : List ItemPtr)
    (evs : List TOOL_EVENT) : ToolState × List ItemPtr × Bool × List TOOL_EVENT :=
  let limit := min d.MAX_SELECT_ITEM_IDS aCollector.length
  let r := doSelectionMenuLoop d aCollector limit s none evs
  match r.2.1 with
  | some current => (unhighlight d r.1 current .BRIGHTENED false, [current], true, r.2.2)
  | none => (r.1, aCollector, false, r.2.2)

/-- The method `SCH_SELECTION_TOOL::SelectionMenu`. -/
def SelectionMenu (d : SCH_FRAME) (s : ToolState) (collector : SCH_COLLECTOR)
    (evs : List TOOL_EVENT) : ToolState × SCH_COLLECTOR × List TOOL_EVENT :=
  let r := doSelectionMenu d s collector.m_List evs
  if !r.2.2.1 then (r.1, { m_List := r.2.1, m_MenuCancelled := true }, r.2.2.2)
  else (r.1, { collector with m_List := r.2.1 }, r.2.2.2)

/-- The loop `for( int i = collector.GetCount() - 1; i >= 0; --i )` of `SelectPoint`; the
first argument is `i + 1`. The result is `none` when `collector[ i ]->IsLocked()` is
evaluated on a null `collector[ i ]`. -/
def SelectPoint_filterLoop (d : SCH_FRAME) (aCheckLocked : Bool) :
    Nat → List ItemPtr → Option (List ItemPtr)
  | 0, collector => some collector
  | i + 1, collector =>
    match collector[i]? with
    | none => none
    | some item =>
      let c1 := if !selectable d item false then collector.eraseIdx i else collector
      if aCheckLocked then
        match c1[i]? with
        | none => none
        | some item2 =>
          SelectPoint_filterLoop d aCheckLocked i (if d.IsLocked item2 then c1.eraseIdx i else c1)
      else SelectPoint_filterLoop d aCheckLocked i c1

/-- What `SelectPoint` leaves behind: the state, the returned item (`none` for null), the
value of the caller's cancellation flag (`none` when no flag was passed) and the events left. -/
structure SelectPointResult where
  tool : ToolState
  item : Option ItemPtr
  aSelectionCancelledFlag : Option Bool
  events : List TOOL_EVENT

/-- The end of `SelectPoint`, from `if( collector.GetCount() == 1 )` on. -/
def SelectPoint_finish (d : SCH_FRAME) (s : ToolState) (collector : List ItemPtr)
    (anyCollected : Bool) (aSelectionCancelledFlag : Option Bool) (evs : List TOOL_EVENT) :
    SelectPointResult :=
  match collector with
  | [item] =>
    { tool := toggleSelection d s item false, item := some item,
      aSelectionCancelledFlag := aSelectionCancelledFlag, events := evs }
  | _ =>
    if !s.m_additive && anyCollected then
      { tool := clearSelection d s, item := none,
        aSelectionCancelledFlag := aSelectionCancelledFlag, events := evs }
    else
      { tool := s, item := none,
        aSelectionCancelledFlag := aSelectionCancelledFlag, events := evs }

/-- The method `SCH_SELECTION_TOOL::SelectPoint`. `aSelectionCancelledFlag` is `none` for a
null pointer and `some b` for a pointer to a flag holding `b`; `evs` are the events the
chooser's loop will see. -/
def SelectPoint (d : SCH_FRAME) (s : ToolState) (aWhere : VECTOR2I)
    (aFilterList : List KICAD_T) (aSelectionCancelledFlag : Option Bool) (aCheckLocked : Bool)
    (evs : List TOOL_EVENT) : Option SelectPointResult :=
  let collected := d.Collect aFilterList aWhere
  let anyCollected := collected.length != 0
  match SelectPoint_filterLoop d aCheckLocked collected.length collected with
  | none => none
  | some filtered =>
    let s1 := { s with m_selection := s.m_selection.ClearReferencePoint }
    let guessed :=
      if filtered.length > 1 && !s1.m_skip_heuristics then
        guessSelectionCandidates d filtered aWhere
      else filtered
    if guessed.length > 1 then
      let r := SelectionMenu d (RunAction s1 (.selectionMenu guessed))
        { m_List := guessed, m_MenuCancelled := false } evs
      if r.2.1.m_MenuCancelled then
        some { tool := r.1, item := none,
               aSelectionCancelledFlag := aSelectionCancelledFlag.map (fun _ => true),
               events := r.2.2 }
      else
        some (SelectPoint_finish d r.1 r.2.1.m_List anyCollected aSelectionCancelledFlag r.2.2)
    else
      some (SelectPoint_finish d s1 guessed anyCollected aSelectionCancelledFlag evs)

/-! ## Box selection -/

/-- The rubber-band rectangle `KIGFX::PREVIEW::SELECTION_AREA`. -/
structure SELECTION_AREA where
  m_origin : VECTOR2I
  m_end : VECTOR2I
  deriving DecidableEq, Repr

/-- Modelled from the spec: `SELECTION_AREA::ViewBBox` (preview_items/selection_area.h is not
among the sources) is the bounding box of the rectangle from the origin to the end corner. -/
def SELECTION_AREA.ViewBBox (area : SELECTION_AREA) : BOX2I :=
  { m_Pos := { x := min area.m_origin.x area.m_end.x, y := min area.m_origin.y area.m_end.y },
    m_Size := { x := Int.natAbs (area.m_end.x - area.m_origin.x),
                y := Int.natAbs (area.m_end.y - area.m_origin.y) } }

/-- Modelled from the spec: `EDA_RECT::Normalize` (its source is not among the sources) turns
a rectangle of negative width or height into the same rectangle with a non-negative size. -/
def EDA_RECT.Normalize (r : EDA_RECT) : EDA_RECT :=
  let r1 : EDA_RECT :=
    if r.m_Size.y < 0 then
      { m_Pos := { x := r.m_Pos.x, y := int32 (r.m_Pos.y - int32 (-r.m_Size.y)) },
        m_Size := { x := r.m_Size.x, y := int32 (-r.m_Size.y) } }
    else r
  if r1.m_Size.x < 0 then
    { m_Pos := { x := int32 (r1.m_Pos.x - int32 (-r1.m_Size.x)), y := r1.m_Pos.y },
      m_Size := { x := int32 (-r1.m_Size.x), y := r1.m_Size.y } }
  else r1

/-- The local `int width = area.GetEnd().x - area.GetOrigin().x;` of `selectMultiple`. -/
def selectMultiple_width (area : SELECTION_AREA) : Int :=
  int32 (area.m_end.x - area.m_origin.x)

/-- The local `int height = area.GetEnd().y - area.GetOrigin().y;` of `selectMultiple`. -/
def selectMultiple_height (area : SELECTION_AREA) : Int :=
  int32 (area.m_end.y - area.m_origin.y)

/-- The local `windowSelection` of `selectMultiple` as it is passed to `HitTest`: true asks
for items fully enclosed by the rectangle, false for items crossed by it. -/
def selectMultiple_windowSelection (d : SCH_FRAME) (area : SELECTION_AREA) : Bool :=
  let windowSelection := if selectMultiple_width area ≥ 0 then true else false
  if d.IsMirroredX then !windowSelection else windowSelection

/-- The local `selectionRect` of `selectMultiple`. -/
def selectMultiple_selectionRect (area : SELECTION_AREA) : EDA_RECT :=
  EDA_RECT.Normalize
    { m_Pos := area.m_origin,
      m_Size := { x := selectMultiple_width area, y := selectMultiple_height area } }

/-- One pass of the loop over the queried view items in `selectMultiple`. -/
def selectMultiple_visit (d : SCH_FRAME) (selectionRect : EDA_RECT) (windowSelection : Bool)
    (s : ToolState) (it : Option ItemPtr) : ToolState :=
  match it with
  | none => s
  | some item =>
    if !selectable d item false then s
    else if d.HitTest item selectionRect windowSelection then
      if s.m_subtractive then unselect d s item else select d s item
    else s

/-- The body of `if( evt->IsMouseUp( BUT_LEFT ) )` in `selectMultiple`. -/
def selectMultiple_mouseUp (d : SCH_FRAME) (s : ToolState) (area : SELECTION_AREA) :
    ToolState :=
  let selectedItems := d.Query area.ViewBBox
  let windowSelection := selectMultiple_windowSelection d area
  let selectionRect := selectMultiple_selectionRect area
  let s1 := selectedItems.foldl (selectMultiple_visit d selectionRect windowSelection) s
  if !s1.m_selection.Empty then ProcessEvent s1 .SelectedEvent else s1

/-- The event loop of `selectMultiple`: the state, the local `cancelled` and the events left
when the loop is over. -/
def selectMultipleLoop (d : SCH_FRAME) :
    ToolState → SELECTION_AREA → List TOOL_EVENT → ToolState × Bool × List TOOL_EVENT
  | s, _, [] => (s, false, [])
  | s, area, evt :: rest =>
    if evt.kind = .CancelInteractive ∨ evt.kind = .Activate ∨ evt.kind = .Cancel then
      (s, true, rest)
    else
      let area1 : SELECTION_AREA :=
        if evt.kind = .Drag .BUT_LEFT then { m_origin := evt.DragOrigin, m_end := evt.Position }
        else area
      if evt.kind = .MouseUp .BUT_LEFT then
        (selectMultiple_mouseUp d s area1, false, rest)
      else selectMultipleLoop d s area1 rest

/-- The method `SCH_SELECTION_TOOL::selectMultiple`: the state, the returned `cancelled` and
the events left. -/
def selectMultiple (d : SCH_FRAME) (s : ToolState) (evs : List TOOL_EVENT) :
    ToolState × Bool × List TOOL_EVENT :=
  let s0 := { s with m_multiple := true }
  let area : SELECTION_AREA := { m_origin := { x := 0, y := 0 }, m_end := { x := 0, y := 0 } }
  let r := selectMultipleLoop d s0 area evs
  let s1 := { r.1 with m_multiple := false }
  let s2 := if !r.2.1 then { s1 with m_selection := s1.m_selection.ClearReferencePoint } else s1
  (s2, r.2.1, r.2.2)

/-! ## The main loop -/

/-- Modelled from the spec: `BOX2I::Inflate` (math/box2.h is not among the sources) grows a
box by the margin on every side. -/
def BOX2I.Inflate (b : BOX2I) (dx dy : Int) : BOX2I :=
  { m_Pos := { x := b.m_Pos.x - dx, y := b.m_Pos.y - dy },
    m_Size := { x := b.m_Size.x + 2 * dx, y := b.m_Size.y + 2 * dy } }

/-- Modelled from the spec: `BOX2I::Contains` (math/box2.h is not among the sources) holds
for the points inside the box, its border included. -/
def BOX2I.Contains (b : BOX2I) (p : VECTOR2I) : Bool :=
  decide (b.m_Pos.x ≤ p.x ∧ p.x ≤ b.m_Pos.x + b.m_Size.x ∧
          b.m_Pos.y ≤ p.y ∧ p.y ≤ b.m_Pos.y + b.m_Size.y)

/-- The constant `GRIP_MARGIN` of `selectionContains`. -/
def GRIP_MARGIN : Int := 20

/-- The method `SCH_SELECTION_TOOL::selectionContains`. -/
def selectionContains (d : SCH_FRAME) (s : ToolState) (aPoint : VECTOR2I) : Bool :=
  let margin := d.ToWorld { x := GRIP_MARGIN, y := GRIP_MARGIN }
  s.m_selection.m_items.any
    (fun item => ((d.ViewBBox item).Inflate margin.x margin.y).Contains aPoint)

/-- The body of the `while( OPT_TOOL_EVENT evt = Wait() )` loop of `Main` for the event `evt`,
`rest` being the events that follow it: the new state and the events that are left for the
next iteration. The result is `none` when a call faults. -/
def MainIteration (d : SCH_FRAME) (s : ToolState) (evt : TOOL_EVENT) (rest : List TOOL_EVENT) :
    Option (ToolState × List TOOL_EVENT) :=
  let sa := { s with m_additive := evt.MD_SHIFT }
  let sb := { sa with m_subtractive := !sa.m_additive && evt.MD_CTRL }
  let s0 := { sb with m_skip_heuristics := evt.MD_ALT }
  match evt.kind with
  | .Click .BUT_LEFT =>
    if d.GetToolId ≠ d.ID_NO_TOOL_SELECTED then some (s0, rest)
    else if evt.MD_CTRL && d.isSchEditFrame then some (RunAction s0 .highlightNet, rest)
    else
      let s1 := if !s0.m_additive then clearSelection d s0 else s0
      match SelectPoint d s1 evt.Position d.AllItems none false rest with
      | none => none
      | some r => some (r.tool, r.events)
  | .Click .BUT_RIGHT =>
    if s0.m_selection.Empty then
      match SelectPoint d s0 evt.Position d.AllItems (some false) false rest with
      | none => none
      | some r =>
        let s1 := { r.tool with m_selection := r.tool.m_selection.SetIsHover true }
        if r.aSelectionCancelledFlag = some true then some (s1, r.events)
        else some (RunAction s1 .showContextMenu, r.events)
    else some (RunAction s0 .showContextMenu, rest)
  | .DblClick .BUT_LEFT =>
    let sel :=
      if s0.m_selection.Empty then
        (SelectPoint d s0 evt.Position d.AllItems none false rest).map
          (fun r => (r.tool, r.events))
      else some (s0, rest)
    match sel with
    | none => none
    | some (s1, rest1) =>
      match s1.m_selection.Front with
      | some item =>
        if d.itemType item = .SCH_SHEET_T then some (RunAction s1 .enterSheet, rest1)
        else some (RunAction s1 .properties, rest1)
      | none => some (RunAction s1 .properties, rest1)
  | .Drag .BUT_LEFT =>
    if s0.m_additive || s0.m_subtractive || s0.m_selection.Empty then
      let r := selectMultiple d s0 rest
      some (r.1, r.2.2)
    else if selectionContains d s0 evt.Position then
      some (RunAction s0 .invokeInteractiveEdit, rest)
    else some (clearSelection d s0, rest)
  | .ContextMenuChoice cmd =>
    match cmd with
    | none => none
    | some id =>
      if d.ID_POPUP_SCH_SELECT_UNIT_CMP ≤ id ∧ id ≤ d.ID_POPUP_SCH_SELECT_UNIT_CMP_MAX then
        match s0.m_selection.Front with
        | some front =>
          if d.itemType front = .SCH_COMPONENT_T then
            some (RunAction s0 (.selectUnit front (int32 (id - d.ID_POPUP_SCH_SELECT_UNIT_CMP))),
                  rest)
          else some (s0, rest)
        | none => some (s0, rest)
      else if d.ID_POPUP_SCH_UNFOLD_BUS ≤ id ∧ id ≤ d.ID_POPUP_SCH_UNFOLD_BUS_END then
        some (RunAction s0 .unfoldBus, rest)
      else some (s0, rest)
  | .CancelInteractive => some (RunAction (clearSelection d s0) .clearHighlight, rest)
  | .Cancel => some (RunAction (clearSelection d s0) .clearHighlight, rest)
  | .UndoRedoPre => some (clearSelection d s0, rest)
  | .ContextMenuClosed => some (RunAction s0 .closeContextMenu, rest)
  | _ => some (s0, rest)

/-- The loop `for( int i = m_selection.GetSize() - 1; i >= 0; --i )` of `RequestSelection`;
the first argument is `i + 1`. The result is `none` when `GetItem( i )` is read outside the
container. -/
def RequestSelection_trimLoop (d : SCH_FRAME) (aFilterList : List KICAD_T) :
    Nat → ToolState → Option ToolState
  | 0, s => some s
  | i + 1, s =>
    match s.m_selection.GetItem i with
    | none => none
    | some item =>
      if !d.IsType item aFilterList then
        RequestSelection_trimLoop d aFilterList i (toggleSelection d s item false)
      else RequestSelection_trimLoop d aFilterList i s

/-- The method `SCH_SELECTION_TOOL::RequestSelection`: the state (whose `m_selection` is the
returned selection) and the events left; `none` when a call faults. -/
def RequestSelection (d : SCH_FRAME) (s : ToolState) (aFilterList : List KICAD_T)
    (evs : List TOOL_EVENT) : Option (ToolState × List TOOL_EVENT) :=
  if s.m_selection.Empty then
    let cursorPos := d.GetCursorPosition true
    let s1 := clearSelection d s
    match SelectPoint d s1 cursorPos aFilterList none false evs with
    | none => none
    | some r =>
      some ({ r.tool with m_selection := r.tool.m_selection.SetIsHover true }, r.events)
  else
    match RequestSelection_trimLoop d aFilterList s.m_selection.GetSize s with
    | none => none
    | some s1 => some (s1, evs)

/-- The array `nodeTypes`. -/
def nodeTypes : List KICAD_T :=
  [.SCH_LINE_LOCATE_WIRE_T, .SCH_LINE_LOCATE_BUS_T, .SCH_BUS_WIRE_ENTRY_T,
   .SCH_BUS_BUS_ENTRY_T, .SCH_LABEL_T, .SCH_HIER_LABEL_T, .SCH_GLOBAL_LABEL_T,
   .SCH_SHEET_PIN_T, .SCH_JUNCTION_T]

/-- The method `SCH_SELECTION_TOOL::SelectNode`. -/
def SelectNode (d : SCH_FRAME) (s : ToolState) (aEvent : TOOL_EVENT) (evs : List TOOL_EVENT) :
    Option (ToolState × List TOOL_EVENT) :=
  let cursorPos := d.GetCursorPosition (!aEvent.MD_ALT)
  match SelectPoint d s cursorPos nodeTypes none false evs with
  | none => none
  | some r => some (r.tool, r.events)

/-- The array `wiresAndBusses` of `SelectConnection`. -/
def wiresAndBusses : List KICAD_T := [.SCH_LINE_LOCATE_WIRE_T, .SCH_LINE_LOCATE_BUS_T]

/-- The method `SCH_SELECTION_TOOL::SelectConnection`: the state and the events left; `none`
when a call faults. -/
def SelectConnection (d : SCH_FRAME) (s : ToolState) (evs : List TOOL_EVENT) :
    Option (ToolState × List TOOL_EVENT) :=
  match RequestSelection d s wiresAndBusses evs with
  | none => none
  | some (s1, rest) =>
    if s1.m_selection.Empty then some (s1, rest)
    else
      match s1.m_selection.Front with
      | none => some (s1, rest)
      | some line =>
        let s2 := d.GetDrawItems.foldl
          (fun st item => if d.IsCandidate line item then select d st item else st) s1
        if s2.m_selection.GetSize > 1 then some (ProcessEvent s2 .SelectedEvent, rest)
        else some (s2, rest)

end SchSelection

/-! ## The color value type (include/gal/color4d.h)

The components are `double` in the source. A finite `double` is modelled by the rational
number it denotes and a failed `assert` is the result `none`. `Brightened` and `Darkened`
compute in `double` arithmetic, modelled below; `GetBrightness` is the exact weighted sum. -/

namespace KIGFX

/-! ### The type `double`

An arithmetic operation on `double`s is the exact operation followed by the IEEE 754 binary64
rounding to nearest, ties to even. Each operation is rounded on its own (no fused
multiply-add, no extended intermediate precision). The exponent range is not bounded above:
magnitudes beyond the largest finite `double`, which would round to an infinity, are not
modelled; they do not arise in `Brightened` and `Darkened`, whose factor lies in [0, 1]. -/

namespace Double

/-- Rounding of a rational to the nearest integer, a tie going to the even neighbour. -/
def roundHalfEven (n : ℚ) : ℤ :=
  if n - ⌊n⌋ < 1 / 2 then ⌊n⌋
  else if 1 / 2 < n - ⌊n⌋ then ⌊n⌋ + 1
  else if ⌊n⌋ % 2 = 0 then ⌊n⌋ else ⌊n⌋ + 1

/-- The binary exponent of the binade of `x`: the integer `e` with `2^e ≤ |x| < 2^(e+1)`,
but at least -1022, the exponent of the subnormal numbers. -/
def exponent (x : ℚ) : ℤ := max (Int.log 2 |x|) (-1022)

/-- The distance between neighbouring `double`s in the binade of `x` (53 significant bits). -/
def ulp (x : ℚ) : ℚ := (2 : ℚ) ^ (exponent x - 52)

/-- The binary64 value nearest to `x`, ties to even. -/
def round (x : ℚ) : ℚ := (roundHalfEven (x / ulp x) : ℚ) * ulp x

/-- The rational `x` is the value of a `double`. -/
def isDouble (x : ℚ) : Prop := round x = x

instance (x : ℚ) : Decidable (isDouble x) := inferInstanceAs (Decidable (round x = x))

/-- The operator `+` on `double`. -/
def add (x y : ℚ) : ℚ := round (x + y)

/-- The operator `-` on `double`. -/
def sub (x y : ℚ) : ℚ := round (x - y)

/-- The operator `*` on `double`. -/
def mul (x y : ℚ) : ℚ := round (x * y)

end Double

/-- The class `COLOR4D`: red, green, blue and alpha components, each the value of a
`double`. -/
structure COLOR4D where
  r : ℚ
  g : ℚ
  b : ℚ
  a : ℚ
  deriving DecidableEq

namespace COLOR4D

/-- The constructor `COLOR4D( double aRed, double aGreen, double aBlue, double aAlpha )`. -/
def ofComponents (aRed aGreen aBlue aAlpha : ℚ) : Option COLOR4D :=
  if ¬ (aRed ≥ 0 ∧ aRed ≤ 1) then none
  else if ¬ (aGreen ≥ 0 ∧ aGreen ≤ 1) then none
  else if ¬ (aBlue ≥ 0 ∧ aBlue ≤ 1) then none
  else if ¬ (aAlpha ≥ 0 ∧ aAlpha ≤ 1) then none
  else some { r := aRed, g := aGreen, b := aBlue, a := aAlpha }

/-- The method `COLOR4D::Brightened`: every component is computed as
`r * ( 1.0 - aFactor ) + aFactor` in `double` arithmetic. -/
def Brightened (c : COLOR4D) (aFactor : ℚ) : Option COLOR4D :=
  if ¬ (aFactor ≥ 0 ∧ aFactor ≤ 1) then none
  else
    ofComponents (Double.add (Double.mul c.r (Double.sub 1 aFactor)) aFactor)
      (Double.add (Double.mul c.g (Double.sub 1 aFactor)) aFactor)
      (Double.add (Double.mul c.b (Double.sub 1 aFactor)) aFactor) c.a

/-- The method `COLOR4D::Darkened`: every component is computed as `r * ( 1.0 - aFactor )` in
`double` arithmetic. -/
def Darkened (c : COLOR4D) (aFactor : ℚ) : Option COLOR4D :=
  if ¬ (aFactor ≥ 0 ∧ aFactor ≤ 1) then none
  else
    ofComponents (Double.mul c.r (Double.sub 1 aFactor)) (Double.mul c.g (Double.sub 1 aFactor))
      (Double.mul c.b (Double.sub 1 aFactor)) c.a

/-- The method `COLOR4D::GetBrightness`. -/
def GetBrightness (c : COLOR4D) : ℚ :=
  c.r * 0.299 + c.g * 0.587 + c.b * 0.117

end COLOR4D

end KIGFX

namespace SchSelection

/-! ## Vocabulary of the statements -/

/-- The items `highlight` and `unhighlight` fan out to: the pins and fields of a symbol, the
sheet-pins of a sheet, nothing for any other item. -/
def subElements (d : SCH_FRAME) (aItem : ItemPtr) : List ItemPtr :=
  if d.itemType aItem = .SCH_COMPONENT_T then d.GetPins aItem ++ d.GetFields aItem
  else if d.itemType aItem = .SCH_SHEET_T then d.GetSheetPins aItem
  else []

/-- The state in which the flag of mode `m` has the value `v` on every item of `xs` and
nothing else differs from `s`. -/
def setModeFlags (m : HighlightMode) (v : Bool) (s : ToolState) (xs : List ItemPtr) :
    ToolState :=
  { s with
    selectedFlag := fun y => if m = .SELECTED ∧ y ∈ xs then v else s.selectedFlag y,
    brightenedFlag := fun y => if m = .BRIGHTENED ∧ y ∈ xs then v else s.brightenedFlag y }

/-- The calls that mutate the selection. -/
inductive Mutation where
  | select (aItem : ItemPtr)
  | unselect (aItem : ItemPtr)
  | toggleSelection (aItem : ItemPtr) (aForce : Bool)
  | clearSelection
  | AddItemToSel (aItem : Option ItemPtr) (aQuietMode : Bool)
  | AddItemsToSel (aList : Option (List ItemPtr)) (aQuietMode : Bool)
  | RemoveItemFromSel (aItem : Option ItemPtr) (aQuietMode : Bool)
  | RemoveItemsFromSel (aList : Option (List ItemPtr)) (aQuietMode : Bool)

/-- The state after one mutating call. -/
def applyMutation (d : SCH_FRAME) (s : ToolState) : Mutation → ToolState
  | .select aItem => select d s aItem
  | .unselect aItem => unselect d s aItem
  | .toggleSelection aItem aForce => toggleSelection d s aItem aForce
  | .clearSelection => clearSelection d s
  | .AddItemToSel aItem aQuietMode => AddItemToSel d s aItem aQuietMode
  | .AddItemsToSel aList aQuietMode => AddItemsToSel d s aList aQuietMode
  | .RemoveItemFromSel aItem aQuietMode => RemoveItemFromSel d s aItem aQuietMode
  | .RemoveItemsFromSel aList aQuietMode => RemoveItemsFromSel d s aList aQuietMode

/-- The state after a sequence of mutating calls. -/
def applyMutations (d : SCH_FRAME) (s : ToolState) (ms : List Mutation) : ToolState :=
  ms.foldl (applyMutation d) s

/-- The SELECTED flags after every item of `l` and every sub-element of an item of `l` had
its flag cleared. -/
def clearedFlags (d : SCH_FRAME) (l : List ItemPtr) (f : ItemPtr → Bool) : ItemPtr → Bool :=
  fun y => if l.any (fun x => decide (y = x ∨ y ∈ subElements d x)) then false else f y

/-- A schematic with a symbol 1 owning the pins 2, 3, 4 and the fields 5, 6, a sheet 7 owning
the sheet-pins 8, 9, and wires for all other items. A click at `(n, 0)` finds item `n`
(together with its owner when it has one), a click elsewhere finds nothing. The wires 10 to
13 form one connected run, the wire 20 is connected to nothing else, and the cursor is on
the wire 10. -/
def exampleFrame : SCH_FRAME :=
  { itemType := fun i =>
      if i = 1 then .SCH_COMPONENT_T
      else if i = 2 ∨ i = 3 ∨ i = 4 then .SCH_PIN_T
      else if i = 5 ∨ i = 6 then .SCH_FIELD_T
      else if i = 7 then .SCH_SHEET_T
      else if i = 8 ∨ i = 9 then .SCH_SHEET_PIN_T
      else .SCH_LINE_T,
    GetParent := fun i =>
      if 2 ≤ i ∧ i ≤ 6 then some 1 else if i = 8 ∨ i = 9 then some 7 else none,
    GetPins := fun i => if i = 1 then [2, 3, 4] else [],
    GetFields := fun i => if i = 1 then [5, 6] else [],
    GetSheetPins := fun i => if i = 7 then [8, 9] else [],
    IsVisible := fun _ => true,
    IsLocked := fun _ => false,
    GetShowAllPins := false,
    GetToolId := 0,
    ID_NO_TOOL_SELECTED := 0,
    isSchEditFrame := true,
    AllItems := [],
    Collect := fun _ p =>
      if p.y = 0 ∧ 1 ≤ p.x then
        (if 2 ≤ p.x ∧ p.x ≤ 6 then [1, p.x.toNat]
         else if p.x = 8 ∨ p.x = 9 then [7, p.x.toNat]
         else [p.x.toNat])
      else [],
    Query := fun _ => [some 10, some 11, some 12],
    HitTest := fun i _ _ => decide (i = 10 ∨ i = 11),
    IsMirroredX := false,
    ViewBBox := fun i =>
      { m_Pos := { x := 100 * (i : Int), y := 0 }, m_Size := { x := 50, y := 50 } },
    ToWorld := fun v => v,
    MAX_SELECT_ITEM_IDS := 40,
    ID_POPUP_SCH_SELECT_UNIT_CMP := 1000,
    ID_POPUP_SCH_SELECT_UNIT_CMP_MAX := 1026,
    ID_POPUP_SCH_UNFOLD_BUS := 2000,
    ID_POPUP_SCH_UNFOLD_BUS_END := 2128,
    IsType := fun i l => decide (10 ≤ i) && decide (KICAD_T.SCH_LINE_LOCATE_WIRE_T ∈ l),
    GetCursorPosition := fun _ => { x := 10, y := 0 },
    GetDrawItems := [1, 7, 10, 11, 12, 13, 20],
    IsCandidate := fun line i =>
      decide ((10 ≤ line ∧ line ≤ 13 ∧ 10 ≤ i ∧ i ≤ 13) ∨ (line = 20 ∧ i = 20)) }

/-- The state in which nothing is selected or brightened and nothing was published. -/
def emptyState : ToolState :=
  { selectedFlag := fun _ => false,
    brightenedFlag := fun _ => false,
    m_selection := { m_items := [], m_isHover := false, m_referencePoint := none },
    m_additive := false,
    m_subtractive := false,
    m_multiple := false,
    m_skip_heuristics := false,
    published := [],
    requests := [] }

/-- The example schematic with the parent of the sheet 7 set to the wire 10. -/
def sheetUnderWireFrame : SCH_FRAME :=
  { exampleFrame with
    GetParent := fun i => if i = 7 then some 10 else exampleFrame.GetParent i }

/-- A left-button drag event without modifier keys. -/
def dragAt (origin pos : VECTOR2I) : TOOL_EVENT :=
  { kind := .Drag .BUT_LEFT, MD_SHIFT := false, MD_CTRL := false, MD_ALT := false,
    Position := pos, DragOrigin := origin }

/-- A left-button click event. -/
def clickAt (pos : VECTOR2I) (shift ctrl alt : Bool) : TOOL_EVENT :=
  { kind := .Click .BUT_LEFT, MD_SHIFT := shift, MD_CTRL := ctrl, MD_ALT := alt,
    Position := pos, DragOrigin := pos }

/-- The example schematic while another tool is active in the frame. -/
def busyToolFrame : SCH_FRAME := { exampleFrame with GetToolId := 5 }

/-- The example schematic shown in a frame that is not the schematic editor frame. -/
def otherFrame : SCH_FRAME := { exampleFrame with isSchEditFrame := false }

/-- The example schematic with every pin hidden. -/
def hiddenPinsFrame : SCH_FRAME := { exampleFrame with IsVisible := fun _ => false }

/-- The example state with the wires 10 and 11 selected. -/
def twoWiresState : ToolState := select exampleFrame (select exampleFrame emptyState 10) 11

/-- The items the filtering loop of `SelectPoint` is meant to keep: those that are selectable
and, when locked items are excluded, not locked. -/
def keptByFilter (d : SCH_FRAME) (aCheckLocked : Bool) (item : ItemPtr) : Bool :=
  selectable d item false && !(aCheckLocked && d.IsLocked item)

/-- The candidates of `SelectPoint` after the heuristics, `filtered` being the candidates
left by the filtering loop. -/
def candidatesAfterHeuristics (d : SCH_FRAME) (s : ToolState) (aWhere : VECTOR2I)
    (filtered : List ItemPtr) : List ItemPtr :=
  if filtered.length > 1 && !s.m_skip_heuristics then guessSelectionCandidates d filtered aWhere
  else filtered

/-- Whether `SelectPoint`, left with the candidates `guessed` after the heuristics, runs the
chooser and the chooser is dismissed (`doSelectionMenu` returns false). -/
def chooserDismissed (d : SCH_FRAME) (s : ToolState) (guessed : List ItemPtr)
    (evs : List TOOL_EVENT) : Bool :=
  decide (guessed.length > 1) &&
    !(doSelectionMenu d
        (RunAction { s with m_selection := s.m_selection.ClearReferencePoint }
          (.selectionMenu guessed)) guessed evs).2.2.1

/-- The empty example state with the heuristics switched off. -/
def skipHeuristicsState : ToolState := { emptyState with m_skip_heuristics := true }

/-- The example state after selecting the pin 2 and then its symbol 1. -/
def pinAndSymbolState : ToolState := select exampleFrame (select exampleFrame emptyState 2) 1

/-- The example state after selecting the wires 10 and 11, the pin 2 and its symbol 1. -/
def wiresPinSymbolState : ToolState :=
  select exampleFrame (select exampleFrame twoWiresState 2) 1

/-- A context-menu update event for the menu entry `id`. -/
def menuUpdate (id : Int) : TOOL_EVENT :=
  { kind := .ContextMenuUpdate id, MD_SHIFT := false, MD_CTRL := false, MD_ALT := false,
    Position := { x := 0, y := 0 }, DragOrigin := { x := 0, y := 0 } }

/-- A context-menu choice event carrying the command id `id`. -/
def menuChoice (id : Option Int) : TOOL_EVENT :=
  { kind := .ContextMenuChoice id, MD_SHIFT := false, MD_CTRL := false, MD_ALT := false,
    Position := { x := 0, y := 0 }, DragOrigin := { x := 0, y := 0 } }

/-- The example schematic with a chooser of at most two entries. -/
def smallMenuFrame : SCH_FRAME := { exampleFrame with MAX_SELECT_ITEM_IDS := 2 }

/-- The empty example state with the pin 2 brightened. -/
def pinBrightenedState : ToolState :=
  { emptyState with brightenedFlag := fun y => decide (y = 2) }

end SchSelection

/-! ## Theorems -/

namespace SchSelection

/-! ### Closed forms of the highlight propagation -/

theorem foldl_setModeFlag (m : HighlightMode) (xs : List ItemPtr) (s : ToolState) :
    xs.foldl (setModeFlag m) s = setModeFlags m true s xs := by
  induction xs generalizing s with
  | nil => cases s; simp [setModeFlags]
  | cons x xs ih =>
    rw [List.foldl_cons, ih]
    cases m <;> simp only [setModeFlags, setModeFlag] <;> simp <;> funext y <;>
      by_cases h : y = x <;> simp [h]

theorem foldl_clearModeFlag (m : HighlightMode) (xs : List ItemPtr) (s : ToolState) :
    xs.foldl (clearModeFlag m) s = setModeFlags m false s xs := by
  induction xs generalizing s with
  | nil => cases s; simp [setModeFlags]
  | cons x xs ih =>
    rw [List.foldl_cons, ih]
    cases m <;> simp only [setModeFlags, clearModeFlag] <;> simp <;> funext y <;>
      by_cases h : y = x <;> simp [h]

theorem highlight_eq (d : SCH_FRAME) (s : ToolState) (x : ItemPtr) (m : HighlightMode)
    (g : Bool) :
    highlight d s x m g =
      { setModeFlags m true s (x :: subElements d x) with
        m_selection := if g then s.m_selection.Add x else s.m_selection } := by
  unfold highlight subElements
  simp only [foldl_setModeFlag]
  cases m <;> cases g <;> by_cases h1 : d.itemType x = .SCH_COMPONENT_T <;>
    by_cases h2 : d.itemType x = .SCH_SHEET_T <;>
    simp [h1, h2, setModeFlags, setModeFlag] <;> funext y <;>
    simp only [Bool.or_assoc, Bool.or_comm, Bool.or_left_comm]

theorem unhighlight_eq (d : SCH_FRAME) (s : ToolState) (x : ItemPtr) (m : HighlightMode)
    (g : Bool) :
    unhighlight d s x m g =
      { setModeFlags m false s (x :: subElements d x) with
        m_selection := if g then s.m_selection.Remove x else s.m_selection } := by
  unfold unhighlight subElements
  simp only [foldl_clearModeFlag]
  cases m <;> cases g <;> by_cases h1 : d.itemType x = .SCH_COMPONENT_T <;>
    by_cases h2 : d.itemType x = .SCH_SHEET_T <;>
    simp [h1, h2, setModeFlags, clearModeFlag] <;> funext y <;>
    simp only [Bool.and_assoc, Bool.and_comm, Bool.and_left_comm]

theorem modeFlag_highlight (d : SCH_FRAME) (s : ToolState) (x : ItemPtr)
    (m m' : HighlightMode) (g : Bool) (y : ItemPtr) :
    modeFlag (highlight d s x m g) m' y =
      if m' = m ∧ (y = x ∨ y ∈ subElements d x) then true else modeFlag s m' y := by
  rw [highlight_eq]
  cases m <;> cases m' <;> simp [modeFlag, setModeFlags]

theorem modeFlag_unhighlight (d : SCH_FRAME) (s : ToolState) (x : ItemPtr)
    (m m' : HighlightMode) (g : Bool) (y : ItemPtr) :
    modeFlag (unhighlight d s x m g) m' y =
      if m' = m ∧ (y = x ∨ y ∈ subElements d x) then false else modeFlag s m' y := by
  rw [unhighlight_eq]
  cases m <;> cases m' <;> simp [modeFlag, setModeFlags]

theorem mem_Add (sel : SELECTION) (a x : ItemPtr) :
    x ∈ (sel.Add a).m_items ↔ x = a ∨ x ∈ sel.m_items := by
  unfold SELECTION.Add
  split
  · constructor
    · intro h; exact Or.inr h
    · rintro (h | h)
      · subst h; assumption
      · exact h
  · simp [or_comm]

theorem nodup_Add (sel : SELECTION) (a : ItemPtr) (h : sel.m_items.Nodup) :
    (sel.Add a).m_items.Nodup := by
  unfold SELECTION.Add
  split
  · exact h
  · rename_i hn
    simp only
    rw [List.nodup_append]
    refine ⟨h, List.nodup_singleton a, ?_⟩
    intro y hy hy2
    simp at hy2
    subst hy2
    exact hn hy

theorem mem_Remove (sel : SELECTION) (a x : ItemPtr) (h : sel.m_items.Nodup) :
    x ∈ (sel.Remove a).m_items ↔ x ≠ a ∧ x ∈ sel.m_items := by
  unfold SELECTION.Remove
  simp only
  exact h.mem_erase_iff

theorem mem_Remove_of_ne (sel : SELECTION) (a x : ItemPtr) (h : x ≠ a) :
    x ∈ (sel.Remove a).m_items ↔ x ∈ sel.m_items := by
  unfold SELECTION.Remove
  simp only
  exact List.mem_erase_of_ne h

theorem nodup_Remove (sel : SELECTION) (a : ItemPtr) (h : sel.m_items.Nodup) :
    (sel.Remove a).m_items.Nodup := by
  unfold SELECTION.Remove
  exact h.erase a

/-! ### Selectability -/

/-- C6: `selectable` is false exactly for a library part and for a pin that is not visible
while show-all-pins is off; it is true for every marker and for every other type, and its
value does not depend on `checkVisibilityOnly` (nor, having no access to it, on the
selection state). -/
theorem selectable_spec (d : SCH_FRAME) (aItem : ItemPtr) (checkVisibilityOnly : Bool) :
    (selectable d aItem checkVisibilityOnly = false ↔
      (d.itemType aItem = .LIB_PART_T ∨
        (d.itemType aItem = .SCH_PIN_T ∧ d.IsVisible aItem = false ∧
          d.GetShowAllPins = false))) ∧
    (d.itemType aItem = .SCH_MARKER_T → selectable d aItem checkVisibilityOnly = true) ∧
    (∀ c : Bool, selectable d aItem c = selectable d aItem checkVisibilityOnly) := by
  refine ⟨?_, ?_, ?_⟩
  · unfold selectable
    cases h : d.itemType aItem <;> simp
  · intro h
    simp [selectable, h]
  · intro c
    rfl

/-! ### Highlighting compound items -/

/-- C7: for a symbol (with its pins and fields) or a sheet (with its sheet-pins) and for each
mode `m`, `highlight` sets flag `m` on the item and on every sub-element and nowhere else,
`unhighlight` clears flag `m` on the item and on every sub-element and nowhere else; neither
changes the other flag, and neither changes the membership in the selection container of
anything but the item itself. After `select` followed by `unselect`, the item and its
sub-elements all have the SELECTED flag clear. -/
theorem highlight_unhighlight_compound (d : SCH_FRAME) (s : ToolState) (item : ItemPtr)
    (m : HighlightMode) (g : Bool) (subs : List ItemPtr)
    (hsubs : (d.itemType item = .SCH_COMPONENT_T ∧ subs = d.GetPins item ++ d.GetFields item) ∨
             (d.itemType item = .SCH_SHEET_T ∧ subs = d.GetSheetPins item)) :
    (∀ x, x = item ∨ x ∈ subs → modeFlag (highlight d s item m g) m x = true) ∧
    (∀ x, x ≠ item → x ∉ subs → modeFlag (highlight d s item m g) m x = modeFlag s m x) ∧
    (∀ m', m' ≠ m → ∀ x, modeFlag (highlight d s item m g) m' x = modeFlag s m' x) ∧
    (∀ x, x ≠ item →
      (x ∈ (highlight d s item m g).m_selection.m_items ↔ x ∈ s.m_selection.m_items)) ∧
    (∀ x, x = item ∨ x ∈ subs → modeFlag (unhighlight d s item m g) m x = false) ∧
    (∀ x, x ≠ item → x ∉ subs → modeFlag (unhighlight d s item m g) m x = modeFlag s m x) ∧
    (∀ m', m' ≠ m → ∀ x, modeFlag (unhighlight d s item m g) m' x = modeFlag s m' x) ∧
    (∀ x, x ≠ item →
      (x ∈ (unhighlight d s item m g).m_selection.m_items ↔ x ∈ s.m_selection.m_items)) ∧
    (∀ x, x = item ∨ x ∈ subs → (unselect d (select d s item) item).selectedFlag x = false) := by
  have hs : subElements d item = subs := by
    rcases hsubs with ⟨h1, h2⟩ | ⟨h1, h2⟩
    · simp [subElements, h1, h2]
    · simp [subElements, h1, h2]
  refine ⟨?_, ?_, ?_, ?_, ?_, ?_, ?_, ?_, ?_⟩
  · intro x hx
    rw [modeFlag_highlight, hs, if_pos ⟨rfl, hx⟩]
  · intro x h1 h2
    rw [modeFlag_highlight, hs, if_neg]
    rintro ⟨_, h | h⟩
    · exact h1 h
    · exact h2 h
  · intro m' hm x
    rw [modeFlag_highlight, if_neg]
    exact fun h => hm h.1
  · intro x hx
    rw [highlight_eq]
    cases g
    · simp [setModeFlags]
    · simp [setModeFlags, mem_Add, hx]
  · intro x hx
    rw [modeFlag_unhighlight, hs, if_pos ⟨rfl, hx⟩]
  · intro x h1 h2
    rw [modeFlag_unhighlight, hs, if_neg]
    rintro ⟨_, h | h⟩
    · exact h1 h
    · exact h2 h
  · intro m' hm x
    rw [modeFlag_unhighlight, if_neg]
    exact fun h => hm h.1
  · intro x hx
    rw [unhighlight_eq]
    cases g
    · simp [setModeFlags]
    · simp [setModeFlags, mem_Remove_of_ne _ _ _ hx]
  · intro x hx
    have := modeFlag_unhighlight d (select d s item) item .SELECTED .SELECTED true x
    rw [hs, if_pos ⟨rfl, hx⟩] at this
    exact this

/-- Witness of `highlight_unhighlight_compound` on a symbol with three pins and two fields. -/
theorem highlight_unhighlight_compound_witness :
    ((exampleFrame.itemType 1 = .SCH_COMPONENT_T ∧
        [2, 3, 4, 5, 6] = exampleFrame.GetPins 1 ++ exampleFrame.GetFields 1) ∨
      (exampleFrame.itemType 1 = .SCH_SHEET_T ∧
        [2, 3, 4, 5, 6] = exampleFrame.GetSheetPins 1)) ∧
    (unselect exampleFrame (select exampleFrame emptyState 1) 1).selectedFlag 3 = false :=
  ⟨by decide,
   (highlight_unhighlight_compound exampleFrame emptyState 1 .SELECTED true [2, 3, 4, 5, 6]
      (by decide)).2.2.2.2.2.2.2.2 3 (by decide)⟩

/-! ### Clearing the selection -/

theorem clearedFlags_nil (d : SCH_FRAME) (f : ItemPtr → Bool) : clearedFlags d [] f = f := by
  funext y
  simp [clearedFlags]

theorem clearedFlags_apply (d : SCH_FRAME) (l : List ItemPtr) (f : ItemPtr → Bool)
    (y : ItemPtr) :
    clearedFlags d l f y =
      if ∃ x ∈ l, y = x ∨ y ∈ subElements d x then false else f y := by
  simp [clearedFlags]

theorem clearSelectionLoop_eq (d : SCH_FRAME) :
    ∀ (n : Nat) (s : ToolState), s.m_selection.m_items.length ≤ n →
      clearSelectionLoop d n s =
        ({ s with
           selectedFlag := clearedFlags d s.m_selection.m_items s.selectedFlag,
           m_selection := { s.m_selection with m_items := [] } },
         s.m_selection.m_items.length) := by
  intro n
  induction n with
  | zero =>
    intro s h
    obtain ⟨sf, bf, ⟨items, hov, rp⟩, a, b, c, e, f, g⟩ := s
    simp at h
    subst h
    simp [clearSelectionLoop, clearedFlags_nil]
  | succ n ih =>
    intro s h
    obtain ⟨sf, bf, ⟨items, hov, rp⟩, a, b, c, e, f, g⟩ := s
    cases items with
    | nil => simp [clearSelectionLoop, clearedFlags_nil, SELECTION.Front]
    | cons front tl =>
      simp only [clearSelectionLoop, SELECTION.Front, List.head?_cons]
      rw [ih]
      · simp [unhighlight_eq, setModeFlags, SELECTION.Remove]
        funext y
        simp only [clearedFlags_apply]
        by_cases h1 : y = front <;> by_cases h2 : y ∈ subElements d front <;> simp [h1, h2]
      · simp [unhighlight_eq, setModeFlags, SELECTION.Remove] at h ⊢
        omega

theorem clearSelection_eq (d : SCH_FRAME) (s : ToolState) :
    clearSelection d s =
      if s.m_selection.m_items = [] then s
      else
        { s with
          selectedFlag := clearedFlags d s.m_selection.m_items s.selectedFlag,
          m_selection := { m_items := [], m_isHover := false, m_referencePoint := none },
          published := s.published ++ [.ClearedEvent] } := by
  unfold clearSelection
  by_cases h : s.m_selection.m_items = []
  · simp [SELECTION.Empty, h]
  · simp only [SELECTION.Empty, List.isEmpty_iff, h, if_false, SELECTION.GetSize]
    rw [clearSelectionLoop_eq d _ s (le_refl _)]
    simp [ProcessEvent, SELECTION.SetIsHover, SELECTION.ClearReferencePoint]

/-- C8: `clearSelection` on an empty selection returns the state unchanged (so nothing is
published); on a non-empty selection of `n` items its loop stops after exactly `n`
`unhighlight` steps with an empty container, and the call leaves the container empty, the
hover flag false, the reference point cleared, the SELECTED flag clear on every former
member and on the pins and fields (symbol) or sheet-pins (sheet) of every former member,
and publishes exactly one ClearedEvent. -/
theorem clearSelection_spec (d : SCH_FRAME) (s : ToolState) :
    (s.m_selection.m_items = [] → clearSelection d s = s) ∧
    (s.m_selection.m_items ≠ [] →
      (clearSelectionLoop d s.m_selection.GetSize s).2 = s.m_selection.m_items.length ∧
      (clearSelectionLoop d s.m_selection.GetSize s).1.m_selection.GetSize = 0 ∧
      (clearSelection d s).m_selection.m_items = [] ∧
      (clearSelection d s).m_selection.m_isHover = false ∧
      (clearSelection d s).m_selection.m_referencePoint = none ∧
      (∀ x ∈ s.m_selection.m_items,
        (clearSelection d s).selectedFlag x = false ∧
        (d.itemType x = .SCH_COMPONENT_T →
          ∀ y ∈ d.GetPins x ++ d.GetFields x, (clearSelection d s).selectedFlag y = false) ∧
        (d.itemType x = .SCH_SHEET_T →
          ∀ y ∈ d.GetSheetPins x, (clearSelection d s).selectedFlag y = false)) ∧
      (clearSelection d s).published = s.published ++ [.ClearedEvent]) := by
  constructor
  · intro h
    rw [clearSelection_eq, if_pos h]
  · intro h
    have hl : clearSelectionLoop d s.m_selection.GetSize s = _ :=
      clearSelectionLoop_eq d _ s (le_refl _)
    rw [clearSelection_eq, if_neg h, hl]
    refine ⟨rfl, rfl, rfl, rfl, rfl, ?_, rfl⟩
    intro x hx
    simp only [clearedFlags_apply]
    refine ⟨?_, ?_, ?_⟩
    · rw [if_pos ⟨x, hx, Or.inl rfl⟩]
    · intro ht y hy
      rw [if_pos ⟨x, hx, Or.inr (by simpa [subElements, ht] using hy)⟩]
    · intro ht y hy
      rw [if_pos ⟨x, hx, Or.inr (by simpa [subElements, ht] using hy)⟩]

/-- Witness of `clearSelection_spec` on a selection holding one symbol. -/
theorem clearSelection_spec_witness :
    (select exampleFrame emptyState 1).m_selection.m_items ≠ [] ∧
    (clearSelection exampleFrame (select exampleFrame emptyState 1)).published =
      (select exampleFrame emptyState 1).published ++ [.ClearedEvent] :=
  ⟨by decide,
   ((clearSelection_spec exampleFrame (select exampleFrame emptyState 1)).2
      (by decide)).2.2.2.2.2.2⟩

/-! ### Flag / membership consistency -/

theorem selectedFlag_select (d : SCH_FRAME) (s : ToolState) (y x : ItemPtr) :
    (select d s y).selectedFlag x =
      if x = y ∨ x ∈ subElements d y then true else s.selectedFlag x := by
  have := modeFlag_highlight d s y .SELECTED .SELECTED true x
  simpa [modeFlag, select] using this

theorem selectedFlag_unselect (d : SCH_FRAME) (s : ToolState) (y x : ItemPtr) :
    (unselect d s y).selectedFlag x =
      if x = y ∨ x ∈ subElements d y then false else s.selectedFlag x := by
  have := modeFlag_unhighlight d s y .SELECTED .SELECTED true x
  simpa [modeFlag, unselect] using this

theorem items_select (d : SCH_FRAME) (s : ToolState) (y : ItemPtr) :
    (select d s y).m_selection = s.m_selection.Add y := by
  simp [select, highlight_eq, setModeFlags]

theorem items_unselect (d : SCH_FRAME) (s : ToolState) (y : ItemPtr) :
    (unselect d s y).m_selection = s.m_selection.Remove y := by
  simp [unselect, unhighlight_eq, setModeFlags]

/-- The invariant of the mutations, for one item `x`: the container has no duplicates and
the SELECTED flag of `x` tells whether `x` is a member. -/
theorem select_consistent (d : SCH_FRAME) (s : ToolState) (y x : ItemPtr)
    (htop : ∀ o, x ∉ subElements d o)
    (h : s.m_selection.m_items.Nodup ∧ (s.selectedFlag x = true ↔ x ∈ s.m_selection.m_items)) :
    (select d s y).m_selection.m_items.Nodup ∧
      ((select d s y).selectedFlag x = true ↔ x ∈ (select d s y).m_selection.m_items) := by
  rw [items_select, selectedFlag_select]
  refine ⟨nodup_Add _ _ h.1, ?_⟩
  rw [mem_Add]
  by_cases hx : x = y
  · simp [hx]
  · simp [hx, htop y, h.2]

theorem unselect_consistent (d : SCH_FRAME) (s : ToolState) (y x : ItemPtr)
    (htop : ∀ o, x ∉ subElements d o)
    (h : s.m_selection.m_items.Nodup ∧ (s.selectedFlag x = true ↔ x ∈ s.m_selection.m_items)) :
    (unselect d s y).m_selection.m_items.Nodup ∧
      ((unselect d s y).selectedFlag x = true ↔ x ∈ (unselect d s y).m_selection.m_items) := by
  rw [items_unselect, selectedFlag_unselect]
  refine ⟨nodup_Remove _ _ h.1, ?_⟩
  rw [mem_Remove _ _ _ h.1]
  by_cases hx : x = y
  · simp [hx]
  · simp [hx, htop y, h.2]

theorem clearSelection_consistent (d : SCH_FRAME) (s : ToolState) (x : ItemPtr)
    (h : s.m_selection.m_items.Nodup ∧ (s.selectedFlag x = true ↔ x ∈ s.m_selection.m_items)) :
    (clearSelection d s).m_selection.m_items.Nodup ∧
      ((clearSelection d s).selectedFlag x = true ↔
        x ∈ (clearSelection d s).m_selection.m_items) := by
  rw [clearSelection_eq]
  split
  · exact h
  · refine ⟨List.nodup_nil, ?_⟩
    simp only [clearedFlags_apply, List.not_mem_nil, iff_false]
    split
    · simp
    · rename_i hn
      intro hf
      exact hn ⟨x, h.2.1 hf, Or.inl rfl⟩

theorem ProcessEvent_selectedFlag (s : ToolState) (e : EVENTS) :
    (ProcessEvent s e).selectedFlag = s.selectedFlag := rfl

theorem ProcessEvent_selection (s : ToolState) (e : EVENTS) :
    (ProcessEvent s e).m_selection = s.m_selection := rfl

theorem toggleSelection_consistent (d : SCH_FRAME) (s : ToolState) (y x : ItemPtr) (f : Bool)
    (htop : ∀ o, x ∉ subElements d o)
    (h : s.m_selection.m_items.Nodup ∧ (s.selectedFlag x = true ↔ x ∈ s.m_selection.m_items)) :
    (toggleSelection d s y f).m_selection.m_items.Nodup ∧
      ((toggleSelection d s y f).selectedFlag x = true ↔
        x ∈ (toggleSelection d s y f).m_selection.m_items) := by
  have hstep : ∀ s1 : ToolState,
      (s1.m_selection.m_items.Nodup ∧
        (s1.selectedFlag x = true ↔ x ∈ s1.m_selection.m_items)) →
      ((if (f || selectable d y false) = true then ProcessEvent (select d s1 y) .SelectedEvent
          else s1).m_selection.m_items.Nodup ∧
        ((if (f || selectable d y false) = true then ProcessEvent (select d s1 y) .SelectedEvent
          else s1).selectedFlag x = true ↔
          x ∈ (if (f || selectable d y false) = true then
            ProcessEvent (select d s1 y) .SelectedEvent else s1).m_selection.m_items)) := by
    intro s1 h1
    split
    · exact select_consistent d s1 y x htop h1
    · exact h1
  unfold toggleSelection
  by_cases hsel : s.selectedFlag y = true
  · rw [if_pos hsel]
    exact unselect_consistent d s y x htop h
  · rw [if_neg hsel]
    by_cases hadd : (!s.m_additive) = true
    · rw [if_pos hadd]
      exact hstep _ (clearSelection_consistent d s x h)
    · rw [if_neg hadd]
      exact hstep _ h

theorem foldl_select_consistent (d : SCH_FRAME) (l : List ItemPtr) (x : ItemPtr)
    (htop : ∀ o, x ∉ subElements d o) :
    ∀ s : ToolState,
      (s.m_selection.m_items.Nodup ∧ (s.selectedFlag x = true ↔ x ∈ s.m_selection.m_items)) →
      ((l.foldl (select d) s).m_selection.m_items.Nodup ∧
        ((l.foldl (select d) s).selectedFlag x = true ↔
          x ∈ (l.foldl (select d) s).m_selection.m_items)) := by
  induction l with
  | nil => intro s h; exact h
  | cons y l ih => intro s h; exact ih _ (select_consistent d s y x htop h)

theorem foldl_unselect_consistent (d : SCH_FRAME) (l : List ItemPtr) (x : ItemPtr)
    (htop : ∀ o, x ∉ subElements d o) :
    ∀ s : ToolState,
      (s.m_selection.m_items.Nodup ∧ (s.selectedFlag x = true ↔ x ∈ s.m_selection.m_items)) →
      ((l.foldl (unselect d) s).m_selection.m_items.Nodup ∧
        ((l.foldl (unselect d) s).selectedFlag x = true ↔
          x ∈ (l.foldl (unselect d) s).m_selection.m_items)) := by
  induction l with
  | nil => intro s h; exact h
  | cons y l ih => intro s h; exact ih _ (unselect_consistent d s y x htop h)

theorem applyMutation_consistent (d : SCH_FRAME) (s : ToolState) (mu : Mutation) (x : ItemPtr)
    (htop : ∀ o, x ∉ subElements d o)
    (h : s.m_selection.m_items.Nodup ∧ (s.selectedFlag x = true ↔ x ∈ s.m_selection.m_items)) :
    (applyMutation d s mu).m_selection.m_items.Nodup ∧
      ((applyMutation d s mu).selectedFlag x = true ↔
        x ∈ (applyMutation d s mu).m_selection.m_items) := by
  cases mu with
  | select y => exact select_consistent d s y x htop h
  | unselect y => exact unselect_consistent d s y x htop h
  | toggleSelection y f => exact toggleSelection_consistent d s y x f htop h
  | clearSelection => exact clearSelection_consistent d s x h
  | AddItemToSel it q =>
    cases it with
    | none => exact h
    | some y =>
      simp only [applyMutation, AddItemToSel]
      split
      · exact select_consistent d s y x htop h
      · exact select_consistent d s y x htop h
  | AddItemsToSel l q =>
    cases l with
    | none => exact h
    | some l =>
      simp only [applyMutation, AddItemsToSel]
      split
      · exact foldl_select_consistent d l x htop s h
      · exact foldl_select_consistent d l x htop s h
  | RemoveItemFromSel it q =>
    cases it with
    | none => exact h
    | some y =>
      simp only [applyMutation, RemoveItemFromSel]
      split
      · exact unselect_consistent d s y x htop h
      · exact unselect_consistent d s y x htop h
  | RemoveItemsFromSel l q =>
    cases l with
    | none => exact h
    | some l =>
      simp only [applyMutation, RemoveItemsFromSel]
      split
      · exact foldl_unselect_consistent d l x htop s h
      · exact foldl_unselect_consistent d l x htop s h

/-- C1 (as amended): for every item `x` that is not a pin, field or sheet-pin owned by a
symbol or sheet, starting from a duplicate-free container in which the SELECTED flag of `x`
is set if and only if `x` is a member, every sequence of select, unselect, toggleSelection,
clearSelection, AddItem(s)ToSel and RemoveItem(s)FromSel leads to a state in which the
SELECTED flag of `x` is set if and only if `x` is a member of the container. -/
theorem mutations_keep_toplevel_consistent (d : SCH_FRAME) (ms : List Mutation) (x : ItemPtr)
    (s : ToolState) (htop : ∀ o, x ∉ subElements d o)
    (hnodup : s.m_selection.m_items.Nodup)
    (h : s.selectedFlag x = true ↔ x ∈ s.m_selection.m_items) :
    ((applyMutations d s ms).selectedFlag x = true ↔
      x ∈ (applyMutations d s ms).m_selection.m_items) := by
  have key : ∀ (ms : List Mutation) (s : ToolState),
      (s.m_selection.m_items.Nodup ∧ (s.selectedFlag x = true ↔ x ∈ s.m_selection.m_items)) →
      ((applyMutations d s ms).m_selection.m_items.Nodup ∧
        ((applyMutations d s ms).selectedFlag x = true ↔
          x ∈ (applyMutations d s ms).m_selection.m_items)) := by
    intro ms
    induction ms with
    | nil => intro s h; exact h
    | cons mu ms ih => intro s h; exact ih _ (applyMutation_consistent d s mu x htop h)
  exact (key ms s ⟨hnodup, h⟩).2

/-! ### Point selection -/

theorem filterLoop_selectable (d : SCH_FRAME) (cl : Bool) :
    ∀ (n : Nat) (col r : List ItemPtr),
      (∀ j x, n ≤ j → col[j]? = some x → selectable d x false = true) →
      SelectPoint_filterLoop d cl n col = some r →
      ∀ x ∈ r, selectable d x false = true := by
  intro n
  induction n with
  | zero =>
    intro col r hP hr x hx
    simp only [SelectPoint_filterLoop, Option.some.injEq] at hr
    subst hr
    obtain ⟨j, hj⟩ := List.mem_iff_getElem?.1 hx
    exact hP j x (Nat.zero_le _) hj
  | succ i ih =>
    intro col r hP hr
    have herase : ∀ col0 : List ItemPtr,
        (∀ j x, i + 1 ≤ j → col0[j]? = some x → selectable d x false = true) →
        ∀ j x, i ≤ j → (col0.eraseIdx i)[j]? = some x → selectable d x false = true := by
      intro col0 h0 j x hj hx
      rw [List.getElem?_eraseIdx, if_neg (by omega)] at hx
      exact h0 (j + 1) x (by omega) hx
    have hweak : ∀ col0 : List ItemPtr,
        (∀ j x, i ≤ j → col0[j]? = some x → selectable d x false = true) →
        ∀ j x, i + 1 ≤ j → col0[j]? = some x → selectable d x false = true :=
      fun col0 h0 j x hj hx => h0 j x (by omega) hx
    have hsecond : ∀ c1 : List ItemPtr,
        (∀ j x, i ≤ j → c1[j]? = some x → selectable d x false = true) →
        (if cl = true then
          match c1[i]? with
          | none => none
          | some item2 =>
            SelectPoint_filterLoop d cl i (if d.IsLocked item2 = true then c1.eraseIdx i else c1)
         else SelectPoint_filterLoop d cl i c1) = some r →
        ∀ x ∈ r, selectable d x false = true := by
      intro c1 h1 hr1
      cases cl with
      | false => exact ih c1 r h1 hr1
      | true =>
        rw [if_pos rfl] at hr1
        cases hc1 : c1[i]? with
        | none => rw [hc1] at hr1; cases hr1
        | some item2 =>
          rw [hc1] at hr1
          refine ih _ r ?_ hr1
          split
          · exact herase _ (hweak _ h1)
          · exact h1
    rw [SelectPoint_filterLoop] at hr
    cases hci : col[i]? with
    | none => rw [hci] at hr; cases hr
    | some item =>
      rw [hci] at hr
      refine hsecond _ ?_ hr
      by_cases hs : selectable d item false = true
      · rw [if_neg (by simp [hs])]
        intro j x hj hx
        rcases Nat.eq_or_lt_of_le hj with h | h
        · subst h
          rw [hci] at hx
          cases hx
          exact hs
        · exact hP j x h hx
      · rw [if_pos (by simpa using hs)]
        exact herase col hP

theorem guessSelectionCandidates_subset (d : SCH_FRAME) (l : List ItemPtr) (w : VECTOR2I) :
    ∀ x ∈ guessSelectionCandidates d l w, x ∈ l := by
  intro x hx
  unfold guessSelectionCandidates at hx
  split at hx
  · split at hx
    · exact List.mem_of_mem_erase hx
    · split at hx
      · exact List.mem_of_mem_erase hx
      · split at hx
        · exact List.mem_of_mem_erase hx
        · split at hx
          · exact List.mem_of_mem_erase hx
          · exact hx
  · exact hx

theorem unhighlight_brightened_keeps (d : SCH_FRAME) (s : ToolState) (c : ItemPtr) :
    { unhighlight d s c .BRIGHTENED false with brightenedFlag := s.brightenedFlag } = s := by
  rw [unhighlight_eq]
  simp [setModeFlags]

theorem highlight_brightened_keeps (d : SCH_FRAME) (s : ToolState) (c : ItemPtr) :
    { highlight d s c .BRIGHTENED false with brightenedFlag := s.brightenedFlag } = s := by
  rw [highlight_eq]
  simp [setModeFlags]

theorem keeps_trans (s s1 s2 : ToolState)
    (h1 : { s1 with brightenedFlag := s.brightenedFlag } = s)
    (h2 : { s2 with brightenedFlag := s1.brightenedFlag } = s1) :
    { s2 with brightenedFlag := s.brightenedFlag } = s := by
  obtain ⟨sf, bf, sel, a, b, c, e, f, g⟩ := s
  obtain ⟨sf1, bf1, sel1, a1, b1, c1, e1, f1, g1⟩ := s1
  obtain ⟨sf2, bf2, sel2, a2, b2, c2, e2, f2, g2⟩ := s2
  simp only [ToolState.mk.injEq] at h1 h2 ⊢
  obtain ⟨h11, _, h13, h14, h15, h16, h17, h18, h19⟩ := h1
  obtain ⟨h21, _, h23, h24, h25, h26, h27, h28, h29⟩ := h2
  exact ⟨h21.trans h11, trivial, h23.trans h13, h24.trans h14, h25.trans h15, h26.trans h16,
    h27.trans h17, h28.trans h18, h29.trans h19⟩

theorem doSelectionMenuLoop_spec (d : SCH_FRAME) (l : List ItemPtr) (limit : Nat) :
    ∀ (evs : List TOOL_EVENT) (s : ToolState) (cur : Option ItemPtr),
      (∀ c, cur = some c → c ∈ l) →
      { (doSelectionMenuLoop d l limit s cur evs).1 with brightenedFlag := s.brightenedFlag } = s ∧
      (∀ c, (doSelectionMenuLoop d l limit s cur evs).2.1 = some c → c ∈ l) := by
  intro evs
  induction evs with
  | nil =>
    intro s cur hcur
    exact ⟨rfl, hcur⟩
  | cons evt rest ih =>
    intro s cur hcur
    have hun : { (match cur with
        | some c => unhighlight d s c .BRIGHTENED false
        | none => s) with brightenedFlag := s.brightenedFlag } = s := by
      cases cur with
      | none => rfl
      | some c => exact unhighlight_brightened_keeps d s c
    simp only [doSelectionMenuLoop]
    split
    · rename_i id hk
      split
      · split
        · rename_i c hc
          have h := ih (highlight d (match cur with
            | some c => unhighlight d s c .BRIGHTENED false
            | none => s) c .BRIGHTENED false) (some c)
            (fun c0 h0 => by cases h0; exact List.getElem?_mem hc)
          exact ⟨keeps_trans _ _ _ hun
            (keeps_trans _ _ _ (highlight_brightened_keeps d _ c) h.1), h.2⟩
        · have h := ih (match cur with
            | some c => unhighlight d s c .BRIGHTENED false
            | none => s) none (fun c0 h0 => by cases h0)
          exact ⟨keeps_trans _ _ _ hun h.1, h.2⟩
      · have h := ih (match cur with
          | some c => unhighlight d s c .BRIGHTENED false
          | none => s) none (fun c0 h0 => by cases h0)
        exact ⟨keeps_trans _ _ _ hun h.1, h.2⟩
    · rename_i id hk
      refine ⟨hun, ?_⟩
      intro c hc
      simp only at hc
      cases id with
      | none => simp at hc
      | some i =>
        simp only at hc
        split at hc
        · exact List.getElem?_mem hc
        · cases hc
    · exact ih s cur hcur

theorem doSelectionMenu_spec (d : SCH_FRAME) (s : ToolState) (l : List ItemPtr)
    (evs : List TOOL_EVENT) :
    { (doSelectionMenu d s l evs).1 with brightenedFlag := s.brightenedFlag } = s ∧
    ((doSelectionMenu d s l evs).2.2.1 = true →
      ∃ c ∈ l, (doSelectionMenu d s l evs).2.1 = [c]) ∧
    ((doSelectionMenu d s l evs).2.2.1 = false → (doSelectionMenu d s l evs).2.1 = l) := by
  have h := doSelectionMenuLoop_spec d l (min d.MAX_SELECT_ITEM_IDS l.length) evs s none
    (fun c h0 => by cases h0)
  unfold doSelectionMenu
  simp only
  split
  · rename_i cur hcur
    refine ⟨keeps_trans _ _ _ h.1 (unhighlight_brightened_keeps d _ cur), ?_, ?_⟩
    · intro _
      exact ⟨cur, h.2 cur hcur, rfl⟩
    · intro hf
      cases hf
  · refine ⟨h.1, ?_, ?_⟩
    · intro hf
      cases hf
    · intro _
      rfl

theorem SelectPoint_finish_item (d : SCH_FRAME) (s : ToolState) (coll : List ItemPtr)
    (a : Bool) (fl : Option Bool) (evs : List TOOL_EVENT) (c : ItemPtr)
    (h : (SelectPoint_finish d s coll a fl evs).item = some c) :
    coll = [c] ∧ (SelectPoint_finish d s coll a fl evs).tool = toggleSelection d s c false := by
  rcases coll with _ | ⟨x, _ | ⟨y, tl⟩⟩
  · simp only [SelectPoint_finish] at h
    split at h <;> cases h
  · simp only [SelectPoint_finish, Option.some.injEq] at h
    subst h
    exact ⟨rfl, rfl⟩
  · simp only [SelectPoint_finish] at h
    split at h <;> cases h

theorem SelectionMenu_spec (d : SCH_FRAME) (s : ToolState) (l : List ItemPtr)
    (evs : List TOOL_EVENT) :
    { (SelectionMenu d s { m_List := l, m_MenuCancelled := false } evs).1 with
        brightenedFlag := s.brightenedFlag } = s ∧
    ((SelectionMenu d s { m_List := l, m_MenuCancelled := false } evs).2.1.m_MenuCancelled = false →
      ∃ c ∈ l, (SelectionMenu d s { m_List := l, m_MenuCancelled := false } evs).2.1.m_List = [c]) ∧
    ((SelectionMenu d s { m_List := l, m_MenuCancelled := false } evs).2.1.m_MenuCancelled = true →
      (SelectionMenu d s { m_List := l, m_MenuCancelled := false } evs).2.1.m_List = l) := by
  have h := doSelectionMenu_spec d s l evs
  unfold SelectionMenu
  simp only
  cases hb : (doSelectionMenu d s l evs).2.2.1 with
  | false =>
    rw [if_pos (by simp)]
    refine ⟨h.1, ?_, ?_⟩
    · intro hf
      simp at hf
    · intro _
      exact h.2.2 hb
  | true =>
    rw [if_neg (by simp)]
    refine ⟨h.1, ?_, ?_⟩
    · intro _
      exact h.2.1 hb
    · intro hf
      simp at hf

theorem SelectPoint_item_some (d : SCH_FRAME) (s : ToolState) (aWhere : VECTOR2I)
    (aFilterList : List KICAD_T) (fl : Option Bool) (cl : Bool) (evs : List TOOL_EVENT)
    (r : SelectPointResult) (c : ItemPtr)
    (hr : SelectPoint d s aWhere aFilterList fl cl evs = some r) (hc : r.item = some c) :
    ∃ s1 : ToolState, s1.selectedFlag = s.selectedFlag ∧
      s1.m_selection.m_items = s.m_selection.m_items ∧ s1.m_additive = s.m_additive ∧
      r.tool = toggleSelection d s1 c false ∧ selectable d c false = true := by
  unfold SelectPoint at hr
  simp only at hr
  cases hf : SelectPoint_filterLoop d cl (d.Collect aFilterList aWhere).length
      (d.Collect aFilterList aWhere) with
  | none => rw [hf] at hr; cases hr
  | some filtered =>
    rw [hf] at hr
    simp only at hr
    have hsel : ∀ x ∈ filtered, selectable d x false = true := by
      refine filterLoop_selectable d cl _ _ _ ?_ hf
      intro j x hj hx
      rw [List.getElem?_eq_none hj] at hx
      cases hx
    have hguess : ∀ x ∈ (if (decide (filtered.length > 1) &&
          !s.m_skip_heuristics) = true then guessSelectionCandidates d filtered aWhere
          else filtered), selectable d x false = true := by
      intro x hx
      split at hx
      · exact hsel x (guessSelectionCandidates_subset d filtered aWhere x hx)
      · exact hsel x hx
    generalize (if (decide (filtered.length > 1) &&
          !s.m_skip_heuristics) = true then guessSelectionCandidates d filtered aWhere
          else filtered) = guessed at hr hguess
    split at hr
    · have hm := SelectionMenu_spec d (RunAction
        { s with m_selection := s.m_selection.ClearReferencePoint }
        (.selectionMenu guessed)) guessed evs
      split at hr
      · rw [Option.some.injEq] at hr
        subst hr
        cases hc
      · rename_i hcanc
        rw [Option.some.injEq] at hr
        subst hr
        obtain ⟨h1, h2⟩ := SelectPoint_finish_item _ _ _ _ _ _ _ hc
        obtain ⟨c1, hc1, hc2⟩ := hm.2.1 (by simpa using hcanc)
        have e1 := congrArg ToolState.selectedFlag hm.1
        have e2 := congrArg (fun z => z.m_selection.m_items) hm.1
        have e3 := congrArg ToolState.m_additive hm.1
        refine ⟨_, ?_, ?_, ?_, h2, ?_⟩
        · exact e1
        · exact e2
        · exact e3
        · rw [h1] at hc2
          cases hc2
          exact hguess _ hc1
    · rw [Option.some.injEq] at hr
      subst hr
      obtain ⟨h1, h2⟩ := SelectPoint_finish_item _ _ _ _ _ _ _ hc
      refine ⟨_, ?_, ?_, ?_, h2, ?_⟩
      · rfl
      · rfl
      · rfl
      apply hguess
      rw [h1]
      simp

theorem toggleSelection_items (d : SCH_FRAME) (s : ToolState) (c : ItemPtr) (f : Bool) :
    (toggleSelection d s c f).m_selection.m_items =
      if s.selectedFlag c = true then s.m_selection.m_items.erase c
      else if (f || selectable d c false) = true then
        (if s.m_additive = true then (s.m_selection.Add c).m_items else [c])
      else (if s.m_additive = true then s.m_selection.m_items else []) := by
  unfold toggleSelection
  by_cases h1 : s.selectedFlag c = true
  · rw [if_pos h1, if_pos h1, ProcessEvent_selection, items_unselect]
    rfl
  · rw [if_neg h1, if_neg h1]
    by_cases h2 : (f || selectable d c false) = true
    · simp only [h2, if_true, ProcessEvent_selection, items_select]
      by_cases h3 : s.m_additive = true
      · simp [h3]
      · simp only [Bool.not_eq_true] at h3
        simp only [h3, Bool.not_false, if_true, Bool.false_eq_true, if_false]
        rw [clearSelection_eq]
        split
        · rename_i he
          simp [SELECTION.Add, he]
        · simp [SELECTION.Add]
    · simp only [h2, if_false, Bool.false_eq_true]
      by_cases h3 : s.m_additive = true
      · simp [h3]
      · simp only [Bool.not_eq_true] at h3
        simp only [h3, Bool.not_false, if_true, Bool.false_eq_true, if_false]
        rw [clearSelection_eq]
        split
        · assumption
        · rfl

/-- C3: for distinct items `p` and `c` where `p` is the direct parent of `c` (and, parent
links forming no cycle, `c` is not the parent of `p`), `guessSelectionCandidates` turns both
`[p, c]` and `[c, p]` into `[c]`, whatever the types of the two items are. -/
theorem guessSelectionCandidates_parent_child (d : SCH_FRAME) (p c : ItemPtr) (w : VECTOR2I)
    (hne : p ≠ c) (hpar : d.GetParent c = some p) (hacyc : d.GetParent p ≠ some c) :
    guessSelectionCandidates d [p, c] w = [c] ∧ guessSelectionCandidates d [c, p] w = [c] := by
  constructor
  · simp [guessSelectionCandidates, hpar, hacyc]
  · simp [guessSelectionCandidates, hpar, hne, Ne.symm hne]

/-- Witness of `guessSelectionCandidates_parent_child`: the symbol 1 and its pin 2. -/
theorem guessSelectionCandidates_parent_child_witness :
    (1 : ItemPtr) ≠ 2 ∧ exampleFrame.GetParent 2 = some 1 ∧ exampleFrame.GetParent 1 ≠ some 2 ∧
    guessSelectionCandidates exampleFrame [1, 2] { x := 2, y := 0 } = [2] ∧
    guessSelectionCandidates exampleFrame [2, 1] { x := 2, y := 0 } = [2] :=
  ⟨by decide, by decide, by decide,
   guessSelectionCandidates_parent_child exampleFrame 1 2 { x := 2, y := 0 }
     (by decide) (by decide) (by decide)⟩

/-- C4 (as amended): for a sheet `sh` and a non-sheet item `x` such that `x` is not the direct
parent of `sh`, `guessSelectionCandidates` turns both `[sh, x]` and `[x, sh]` into `[x]`. -/
theorem guessSelectionCandidates_sheet (d : SCH_FRAME) (sh x : ItemPtr) (w : VECTOR2I)
    (hs : d.itemType sh = .SCH_SHEET_T) (hx : d.itemType x ≠ .SCH_SHEET_T)
    (hpar : d.GetParent sh ≠ some x) :
    guessSelectionCandidates d [sh, x] w = [x] ∧ guessSelectionCandidates d [x, sh] w = [x] := by
  have hne : sh ≠ x := by
    intro h
    rw [h] at hs
    exact hx hs
  constructor
  · by_cases h : some sh = d.GetParent x <;> simp [guessSelectionCandidates, hpar, h, hs, hx]
  · by_cases h : d.GetParent x = some sh <;>
      simp [guessSelectionCandidates, h, hs, hx, Ne.symm hpar, hne, Ne.symm hne]

/-- Witness of `guessSelectionCandidates_sheet`: the sheet 7 and the wire 10. -/
theorem guessSelectionCandidates_sheet_witness :
    exampleFrame.itemType 7 = .SCH_SHEET_T ∧ exampleFrame.itemType 10 ≠ .SCH_SHEET_T ∧
    exampleFrame.GetParent 7 ≠ some 10 ∧
    guessSelectionCandidates exampleFrame [7, 10] { x := 0, y := 0 } = [10] ∧
    guessSelectionCandidates exampleFrame [10, 7] { x := 0, y := 0 } = [10] :=
  ⟨by decide, by decide, by decide,
   guessSelectionCandidates_sheet exampleFrame 7 10 { x := 0, y := 0 }
     (by decide) (by decide) (by decide)⟩

/-- C4 fails as stated: when the non-sheet item 10 is the parent of the sheet 7, the parent
rule comes first and the candidates `[7, 10]` and `[10, 7]` are both reduced to the sheet. -/
theorem guessSelectionCandidates_sheet_child_kept :
    sheetUnderWireFrame.itemType 7 = .SCH_SHEET_T ∧
    sheetUnderWireFrame.itemType 10 ≠ .SCH_SHEET_T ∧
    guessSelectionCandidates sheetUnderWireFrame [7, 10] { x := 0, y := 0 } = [7] ∧
    guessSelectionCandidates sheetUnderWireFrame [10, 7] { x := 0, y := 0 } = [7] := by
  decide

theorem select_requests (d : SCH_FRAME) (s : ToolState) (y : ItemPtr) :
    (select d s y).requests = s.requests := by
  simp [select, highlight_eq, setModeFlags]

theorem unselect_requests (d : SCH_FRAME) (s : ToolState) (y : ItemPtr) :
    (unselect d s y).requests = s.requests := by
  simp [unselect, unhighlight_eq, setModeFlags]

theorem clearSelection_requests (d : SCH_FRAME) (s : ToolState) :
    (clearSelection d s).requests = s.requests := by
  rw [clearSelection_eq]
  split <;> rfl

theorem toggleSelection_requests (d : SCH_FRAME) (s : ToolState) (y : ItemPtr) (f : Bool) :
    (toggleSelection d s y f).requests = s.requests := by
  unfold toggleSelection
  by_cases h1 : s.selectedFlag y = true
  · rw [if_pos h1]
    exact unselect_requests d s y
  · rw [if_neg h1]
    have h2 : (if (!s.m_additive) = true then clearSelection d s else s).requests = s.requests := by
      split
      · exact clearSelection_requests d s
      · rfl
    by_cases h3 : (f || selectable d y false) = true
    · simp only [h3, if_true]
      exact (select_requests d _ y).trans h2
    · simp only [h3, if_false, Bool.false_eq_true]
      exact h2

theorem SelectPoint_finish_requests (d : SCH_FRAME) (s : ToolState) (coll : List ItemPtr)
    (a : Bool) (fl : Option Bool) (evs : List TOOL_EVENT) :
    (SelectPoint_finish d s coll a fl evs).tool.requests = s.requests := by
  unfold SelectPoint_finish
  split
  · exact toggleSelection_requests d s _ false
  · split
    · exact clearSelection_requests d s
    · rfl

/-- C5: `guessSelectionCandidates` returns every list whose length is not 2 unchanged; and
when three or more candidates are left after the filtering loop of `SelectPoint`, the call
returns and the one request it sends is the chooser, run on all of these candidates. -/
theorem guessSelectionCandidates_other_lengths (d : SCH_FRAME) (s : ToolState)
    (aWhere : VECTOR2I) (aFilterList : List KICAD_T) (aSelectionCancelledFlag : Option Bool)
    (aCheckLocked : Bool) (evs : List TOOL_EVENT) :
    (∀ l : List ItemPtr, l.length ≠ 2 → guessSelectionCandidates d l aWhere = l) ∧
    (∀ filtered : List ItemPtr,
      SelectPoint_filterLoop d aCheckLocked (d.Collect aFilterList aWhere).length
        (d.Collect aFilterList aWhere) = some filtered →
      3 ≤ filtered.length →
      ∃ r, SelectPoint d s aWhere aFilterList aSelectionCancelledFlag aCheckLocked evs = some r ∧
        r.tool.requests = s.requests ++ [.selectionMenu filtered]) := by
  have hguess : ∀ l : List ItemPtr, l.length ≠ 2 → guessSelectionCandidates d l aWhere = l := by
    intro l hl
    rcases l with _ | ⟨a, _ | ⟨b, _ | ⟨c, tl⟩⟩⟩
    · rfl
    · rfl
    · exact absurd rfl hl
    · rfl
  refine ⟨hguess, ?_⟩
  intro filtered hf hlen
  unfold SelectPoint
  simp only
  rw [hf]
  simp only
  have hg : (if (decide (filtered.length > 1) && !s.m_skip_heuristics) = true then
      guessSelectionCandidates d filtered aWhere else filtered) = filtered := by
    split
    · exact hguess filtered (by omega)
    · rfl
  rw [hg, if_pos (by omega)]
  have hm := SelectionMenu_spec d (RunAction
    { s with m_selection := s.m_selection.ClearReferencePoint }
    (.selectionMenu filtered)) filtered evs
  have hreq := congrArg ToolState.requests hm.1
  split
  · exact ⟨_, rfl, hreq⟩
  · exact ⟨_, rfl, (SelectPoint_finish_requests _ _ _ _ _ _).trans hreq⟩

/-! ### Box selection -/

/-- C9 (the defect): for a drag from x = -2147483648 to x = 1 in an un-mirrored view the drag
goes left to right, yet `int width` wraps to a negative value and the mode handed to the hit
test is "crossing" (`windowSelection` is false). -/
theorem selectMultiple_windowSelection_overflow :
    ((-2147483648 : Int) ≤ 1) ∧ exampleFrame.IsMirroredX = false ∧
    selectMultiple_width
      { m_origin := { x := -2147483648, y := 0 }, m_end := { x := 1, y := 0 } } = -2147483647 ∧
    selectMultiple_windowSelection exampleFrame
      { m_origin := { x := -2147483648, y := 0 }, m_end := { x := 1, y := 0 } } = false := by
  decide

theorem selectMultiple_windowSelection_in_range (d : SCH_FRAME) (area : SELECTION_AREA)
    (hlo : -2147483648 ≤ area.m_end.x - area.m_origin.x)
    (hhi : area.m_end.x - area.m_origin.x < 2147483648) :
    (selectMultiple_windowSelection d area = true ↔
      (decide (area.m_origin.x ≤ area.m_end.x) ≠ d.IsMirroredX)) := by
  have hw : selectMultiple_width area = area.m_end.x - area.m_origin.x := by
    unfold selectMultiple_width int32
    omega
  unfold selectMultiple_windowSelection
  rw [hw]
  by_cases h : area.m_origin.x ≤ area.m_end.x
  · have h2 : area.m_end.x - area.m_origin.x ≥ 0 := by omega
    cases hm : d.IsMirroredX <;> simp [h, h2]
  · have h2 : ¬ (area.m_end.x - area.m_origin.x ≥ 0) := by omega
    cases hm : d.IsMirroredX <;> simp [h, h2]

/-- Witness of `mutations_keep_toplevel_consistent`: the wire 10 through a sequence of
mutations. -/
theorem mutations_keep_toplevel_consistent_witness :
    (∀ o, 10 ∉ subElements exampleFrame o) ∧
    emptyState.m_selection.m_items.Nodup ∧
    (emptyState.selectedFlag 10 = true ↔ 10 ∈ emptyState.m_selection.m_items) ∧
    ((applyMutations exampleFrame emptyState
        [.select 1, .toggleSelection 10 false, .unselect 1]).selectedFlag 10 = true ↔
      10 ∈ (applyMutations exampleFrame emptyState
        [.select 1, .toggleSelection 10 false, .unselect 1]).m_selection.m_items) :=
  have htop : ∀ o, 10 ∉ subElements exampleFrame o := by
    intro o
    simp only [subElements, exampleFrame]
    split_ifs <;> simp
  ⟨htop, by decide, by decide,
   mutations_keep_toplevel_consistent exampleFrame
     [.select 1, .toggleSelection 10 false, .unselect 1] 10 emptyState htop
     (by decide) (by decide)⟩

/-- C1 fails as stated: starting from the consistent state in which nothing is selected,
selecting the symbol 1 leaves its pin 2 flagged SELECTED outside the container; and selecting
the pin 2, then the symbol 1, then unselecting the symbol leaves the pin 2 in the container
with its SELECTED flag clear. -/
theorem mutations_break_subelement_consistency :
    (∀ x, emptyState.selectedFlag x = true ↔ x ∈ emptyState.m_selection.m_items) ∧
    ((applyMutations exampleFrame emptyState [.select 1]).selectedFlag 2 = true ∧
      2 ∉ (applyMutations exampleFrame emptyState [.select 1]).m_selection.m_items) ∧
    (2 ∈ (applyMutations exampleFrame emptyState
          [.select 2, .select 1, .unselect 1]).m_selection.m_items ∧
      (applyMutations exampleFrame emptyState
          [.select 2, .select 1, .unselect 1]).selectedFlag 2 = false) := by
  refine ⟨?_, by decide, by decide⟩
  intro x
  simp [emptyState]

/-! ### Clicks handled by the main loop -/

theorem clearSelection_items (d : SCH_FRAME) (s : ToolState) :
    (clearSelection d s).m_selection.m_items = [] := by
  rw [clearSelection_eq]
  split
  · assumption
  · rfl

theorem SelectPoint_nothing_collected (d : SCH_FRAME) (s : ToolState) (aWhere : VECTOR2I)
    (aFilterList : List KICAD_T) (fl : Option Bool) (cl : Bool) (evs : List TOOL_EVENT)
    (h : d.Collect aFilterList aWhere = []) :
    SelectPoint d s aWhere aFilterList fl cl evs =
      some { tool := { s with m_selection := s.m_selection.ClearReferencePoint },
             item := none, aSelectionCancelledFlag := fl, events := evs } := by
  unfold SelectPoint
  simp [h, SelectPoint_filterLoop, SelectPoint_finish]

/-- C11 (as amended): for a left-click handled by `Main` while SHIFT is not held, no tool is
active in the frame (`GetToolId() == ID_NO_TOOL_SELECTED`) and the click is not a CTRL-click
in the schematic editor frame, at a point where the collector returns no item, the selection
is empty after the event, whatever it held before and whatever ALT is. -/
theorem click_on_empty_space_clears (d : SCH_FRAME) (s : ToolState) (evt : TOOL_EVENT)
    (rest : List TOOL_EVENT)
    (hk : evt.kind = .Click .BUT_LEFT) (hshift : evt.MD_SHIFT = false)
    (htool : d.GetToolId = d.ID_NO_TOOL_SELECTED)
    (hgate : (evt.MD_CTRL && d.isSchEditFrame) = false)
    (hcol : d.Collect d.AllItems evt.Position = []) :
    ∃ s1, MainIteration d s evt rest = some (s1, rest) ∧ s1.m_selection.m_items = [] := by
  unfold MainIteration
  simp only [hk, hshift, htool, hgate, ne_eq, not_true_eq_false, if_false, Bool.not_false,
    Bool.false_eq_true, if_true]
  rw [SelectPoint_nothing_collected _ _ _ _ _ _ _ hcol]
  exact ⟨_, rfl, clearSelection_items d _⟩

/-- Witness of `click_on_empty_space_clears`: a plain click on empty space with two wires
selected. -/
theorem click_on_empty_space_clears_witness :
    (clickAt { x := 0, y := 7 } false false false).kind = .Click .BUT_LEFT ∧
    exampleFrame.GetToolId = exampleFrame.ID_NO_TOOL_SELECTED ∧
    exampleFrame.Collect exampleFrame.AllItems { x := 0, y := 7 } = [] ∧
    twoWiresState.m_selection.m_items = [10, 11] ∧
    ∃ s1, MainIteration exampleFrame twoWiresState
        (clickAt { x := 0, y := 7 } false false false) [] = some (s1, []) ∧
      s1.m_selection.m_items = [] :=
  ⟨rfl, rfl, by decide, by decide,
   click_on_empty_space_clears exampleFrame twoWiresState
     (clickAt { x := 0, y := 7 } false false false) [] rfl rfl rfl rfl (by decide)⟩

/-- C11 fails as stated: with the wires 10 and 11 selected and SHIFT not held, a click on
empty space leaves both selected when another tool is active in the frame, and also when
CTRL is held in the schematic editor frame. -/
theorem click_on_empty_space_kept :
    exampleFrame.Collect exampleFrame.AllItems { x := 0, y := 7 } = [] ∧
    (MainIteration busyToolFrame twoWiresState
      (clickAt { x := 0, y := 7 } false false false) []).map
      (fun r => r.1.m_selection.m_items) = some [10, 11] ∧
    (MainIteration exampleFrame twoWiresState
      (clickAt { x := 0, y := 7 } false true false) []).map
      (fun r => r.1.m_selection.m_items) = some [10, 11] := by
  decide

/-- C12 (as amended): in the schematic editor frame a left-click with CTRL held and SHIFT not
held does not touch the selection: the container and the SELECTED flags are as before, so
the clicked item and every other selected item are still members; when no tool is active the
one request sent is the net highlight, otherwise none is sent. -/
theorem ctrl_click_in_schematic_editor (d : SCH_FRAME) (s : ToolState) (evt : TOOL_EVENT)
    (rest : List TOOL_EVENT)
    (hk : evt.kind = .Click .BUT_LEFT) (hshift : evt.MD_SHIFT = false)
    (hctrl : evt.MD_CTRL = true) (hframe : d.isSchEditFrame = true) :
    ∃ s1, MainIteration d s evt rest = some (s1, rest) ∧
      s1.m_selection = s.m_selection ∧ s1.selectedFlag = s.selectedFlag ∧
      (d.GetToolId = d.ID_NO_TOOL_SELECTED → s1.requests = s.requests ++ [.highlightNet]) ∧
      (d.GetToolId ≠ d.ID_NO_TOOL_SELECTED → s1.requests = s.requests) := by
  unfold MainIteration
  simp only [hk, hshift, hctrl, hframe]
  by_cases htool : d.GetToolId = d.ID_NO_TOOL_SELECTED
  · rw [if_neg (by simp [htool])]
    simp only [Bool.and_self, if_true]
    exact ⟨_, rfl, rfl, rfl, fun _ => rfl, fun h => absurd htool h⟩
  · rw [if_pos htool]
    exact ⟨_, rfl, rfl, rfl, fun h => absurd h htool, fun _ => rfl⟩

/-- Witness of `ctrl_click_in_schematic_editor`: a CTRL-click on the selected wire 10. -/
theorem ctrl_click_in_schematic_editor_witness :
    (clickAt { x := 10, y := 0 } false true false).kind = .Click .BUT_LEFT ∧
    exampleFrame.isSchEditFrame = true ∧
    ∃ s1, MainIteration exampleFrame twoWiresState
        (clickAt { x := 10, y := 0 } false true false) [] = some (s1, []) ∧
      s1.m_selection = twoWiresState.m_selection ∧
      s1.selectedFlag = twoWiresState.selectedFlag ∧
      (exampleFrame.GetToolId = exampleFrame.ID_NO_TOOL_SELECTED →
        s1.requests = twoWiresState.requests ++ [.highlightNet]) ∧
      (exampleFrame.GetToolId ≠ exampleFrame.ID_NO_TOOL_SELECTED →
        s1.requests = twoWiresState.requests) :=
  ⟨rfl, rfl,
   ctrl_click_in_schematic_editor exampleFrame twoWiresState
     (clickAt { x := 10, y := 0 } false true false) [] rfl rfl rfl rfl⟩

/-- C12 fails as stated: with the wires 10 and 11 selected, a CTRL-click (SHIFT not held) on
the wire 10 leaves 10 a member of the selection, in the schematic editor frame (nothing
changes) as well as in another frame (where 11 is dropped instead). -/
theorem ctrl_click_keeps_clicked_item :
    twoWiresState.m_selection.m_items = [10, 11] ∧
    exampleFrame.Collect exampleFrame.AllItems { x := 10, y := 0 } = [10] ∧
    (MainIteration exampleFrame twoWiresState
      (clickAt { x := 10, y := 0 } false true false) []).map
      (fun r => r.1.m_selection.m_items) = some [10, 11] ∧
    (MainIteration otherFrame twoWiresState
      (clickAt { x := 10, y := 0 } false true false) []).map
      (fun r => r.1.m_selection.m_items) = some [10] := by
  decide

/-! ### The filtering loop of the point selection -/

theorem filterLoop_result (d : SCH_FRAME) (cl : Bool) :
    ∀ (n : Nat) (col r : List ItemPtr), n ≤ col.length →
      (∀ x ∈ col.drop n, keptByFilter d cl x = true) →
      SelectPoint_filterLoop d cl n col = some r →
      r = (col.take n).filter (keptByFilter d cl) ++ col.drop n := by
  intro n
  induction n with
  | zero =>
    intro col r _ _ hr
    simp only [SelectPoint_filterLoop, Option.some.injEq] at hr
    simp [hr]
  | succ i ih =>
    intro col r hlen hkept hr
    have hi : i < col.length := by omega
    have hci : col[i]? = some col[i] := List.getElem?_eq_getElem hi
    have htake : col.take (i + 1) = col.take i ++ [col[i]] := by
      rw [List.take_succ, hci]
      rfl
    have hdrop : col.drop i = col[i] :: col.drop (i + 1) := List.drop_eq_getElem_cons hi
    have hlt : (col.take i).length = i := by
      rw [List.length_take]
      omega
    have he_take : (col.eraseIdx i).take i = col.take i := by
      rw [List.eraseIdx_eq_take_drop_succ]
      exact List.take_left' hlt
    have he_drop : (col.eraseIdx i).drop i = col.drop (i + 1) := by
      rw [List.eraseIdx_eq_take_drop_succ]
      exact List.drop_left' hlt
    have he_len : i ≤ (col.eraseIdx i).length := by
      rw [List.length_eraseIdx, if_pos hi]
      omega
    have hA : ∀ r0, SelectPoint_filterLoop d cl i (col.eraseIdx i) = some r0 →
        keptByFilter d cl col[i] = false →
        r0 = (col.take (i + 1)).filter (keptByFilter d cl) ++ col.drop (i + 1) := by
      intro r0 h0 hk
      have := ih (col.eraseIdx i) r0 he_len (by rw [he_drop]; exact hkept) h0
      rw [this, he_take, he_drop, htake, List.filter_append]
      simp [hk]
    have hB : ∀ r0, SelectPoint_filterLoop d cl i col = some r0 →
        keptByFilter d cl col[i] = true →
        r0 = (col.take (i + 1)).filter (keptByFilter d cl) ++ col.drop (i + 1) := by
      intro r0 h0 hk
      have hk2 : ∀ x ∈ col.drop i, keptByFilter d cl x = true := by
        intro x hx
        rw [hdrop] at hx
        rcases List.mem_cons.1 hx with h | h
        · rw [h]
          exact hk
        · exact hkept x h
      have := ih col r0 (by omega) hk2 h0
      rw [this, htake, List.filter_append, hdrop]
      simp [hk]
    rw [SelectPoint_filterLoop, hci] at hr
    dsimp only at hr
    by_cases hs : selectable d col[i] false = true
    · have hc1 : (if (!selectable d col[i] false) = true then col.eraseIdx i else col) = col :=
        if_neg (by simp [hs])
      rw [hc1] at hr
      cases cl with
      | false =>
        rw [if_neg Bool.false_ne_true] at hr
        exact hB r hr (by simp [keptByFilter, hs])
      | true =>
        rw [if_pos rfl, hci] at hr
        dsimp only at hr
        by_cases hl : d.IsLocked col[i] = true
        · rw [if_pos hl] at hr
          exact hA r hr (by simp [keptByFilter, hl])
        · rw [if_neg hl] at hr
          exact hB r hr (by simp [keptByFilter, hs, hl])
    · have hc1 : (if (!selectable d col[i] false) = true then col.eraseIdx i else col) =
          col.eraseIdx i := if_pos (by simpa using hs)
      rw [hc1] at hr
      have hk : keptByFilter d cl col[i] = false := by
        simp only [Bool.not_eq_true] at hs
        simp [keptByFilter, hs]
      cases cl with
      | false =>
        rw [if_neg Bool.false_ne_true] at hr
        exact hA r hr hk
      | true =>
        rw [if_pos rfl] at hr
        cases hc2 : (col.eraseIdx i)[i]? with
        | none => rw [hc2] at hr; cases hr
        | some item2 =>
          rw [hc2] at hr
          dsimp only at hr
          have hmem : item2 ∈ (col.eraseIdx i).drop i := by
            apply List.mem_iff_getElem?.2
            exact ⟨0, by rw [List.getElem?_drop]; exact hc2⟩
          rw [he_drop] at hmem
          have hk2 := hkept item2 hmem
          have hl : d.IsLocked item2 = false := by
            simp only [keptByFilter, Bool.true_and, Bool.and_eq_true, Bool.not_eq_true'] at hk2
            exact hk2.2
          rw [if_neg (by simp [hl])] at hr
          exact hA r hr hk

theorem filterLoop_unlocked_total (d : SCH_FRAME) :
    ∀ (n : Nat) (col : List ItemPtr), n ≤ col.length →
      ∃ r, SelectPoint_filterLoop d false n col = some r := by
  intro n
  induction n with
  | zero => intro col _; exact ⟨col, rfl⟩
  | succ i ih =>
    intro col hlen
    have hi : i < col.length := by omega
    rw [SelectPoint_filterLoop, List.getElem?_eq_getElem hi]
    dsimp only
    rw [if_neg (by simp)]
    split
    · apply ih
      rw [List.length_eraseIdx, if_pos hi]
      omega
    · exact ih col (by omega)

theorem filterLoop_unlocked (d : SCH_FRAME) (col : List ItemPtr) :
    SelectPoint_filterLoop d false col.length col =
      some (col.filter (fun x => selectable d x false)) := by
  obtain ⟨r, hr⟩ := filterLoop_unlocked_total d col.length col (le_refl _)
  have h := filterLoop_result d false col.length col r (le_refl _) (by simp) hr
  rw [hr, h]
  have hk : keptByFilter d false = fun x => selectable d x false := by
    funext x
    simp [keptByFilter]
  simp [hk]

theorem filterLoop_locked (d : SCH_FRAME) (col r : List ItemPtr)
    (hr : SelectPoint_filterLoop d true col.length col = some r) :
    r = col.filter (fun x => selectable d x false && !d.IsLocked x) := by
  have h := filterLoop_result d true col.length col r (le_refl _) (by simp) hr
  rw [h]
  have hk : keptByFilter d true = fun x => selectable d x false && !d.IsLocked x := by
    funext x
    simp [keptByFilter]
  simp [hk]

/-- C13 (the defect): with locked items excluded, the loop reads the collector again at the
index it has just removed an unselectable item from. For the hidden pin 2 alone in the
collector that read is outside of the emptied list and its result (null) is dereferenced: the
loop has no result, where the restriction of the collected list is the empty list; the same
happens for the list `[1, 2]` collected by a click on the pin. -/
theorem filterLoop_locked_faults :
    selectable hiddenPinsFrame 2 false = false ∧
    [2].filter (fun x => selectable hiddenPinsFrame x false && !hiddenPinsFrame.IsLocked x) = [] ∧
    SelectPoint_filterLoop hiddenPinsFrame true 1 [2] = none ∧
    SelectPoint_filterLoop hiddenPinsFrame true 2 [1, 2] = none ∧
    (SelectPoint hiddenPinsFrame emptyState { x := 2, y := 0 } [] none true []).isNone = true := by
  decide

/-! ### Dismissing the chooser -/

theorem SelectionMenu_cancelled (d : SCH_FRAME) (s : ToolState) (l : List ItemPtr)
    (evs : List TOOL_EVENT) :
    (SelectionMenu d s { m_List := l, m_MenuCancelled := false } evs).2.1.m_MenuCancelled =
      !(doSelectionMenu d s l evs).2.2.1 := by
  unfold SelectionMenu
  cases h : (doSelectionMenu d s l evs).2.2.1 <;> simp [h]

theorem SelectPoint_finish_flag (d : SCH_FRAME) (s : ToolState) (coll : List ItemPtr)
    (a : Bool) (fl : Option Bool) (evs : List TOOL_EVENT) :
    (SelectPoint_finish d s coll a fl evs).aSelectionCancelledFlag = fl := by
  unfold SelectPoint_finish
  split
  · rfl
  · split <;> rfl

/-- C14: when the filtering loop of `SelectPoint` has a result, the call returns; if more
than one candidate is left after the heuristics and the chooser is dismissed, it returns no
item, the caller's cancellation flag (when one is supplied) is true, and the members of the
selection container and the SELECTED flag of every item are as before the call; in every
other case the cancellation flag is left as it was. -/
theorem SelectPoint_cancel_atomic (d : SCH_FRAME) (s : ToolState) (aWhere : VECTOR2I)
    (aFilterList : List KICAD_T) (aSelectionCancelledFlag : Option Bool) (aCheckLocked : Bool)
    (evs : List TOOL_EVENT) (filtered : List ItemPtr)
    (hf : SelectPoint_filterLoop d aCheckLocked (d.Collect aFilterList aWhere).length
      (d.Collect aFilterList aWhere) = some filtered) :
    ∃ r, SelectPoint d s aWhere aFilterList aSelectionCancelledFlag aCheckLocked evs = some r ∧
      (chooserDismissed d s (candidatesAfterHeuristics d s aWhere filtered) evs = true →
        r.item = none ∧
        r.aSelectionCancelledFlag = aSelectionCancelledFlag.map (fun _ => true) ∧
        r.tool.m_selection.m_items = s.m_selection.m_items ∧
        r.tool.selectedFlag = s.selectedFlag) ∧
      (chooserDismissed d s (candidatesAfterHeuristics d s aWhere filtered) evs = false →
        r.aSelectionCancelledFlag = aSelectionCancelledFlag) := by
  unfold SelectPoint
  simp only
  rw [hf]
  simp only
  have hgd : (if (decide (filtered.length > 1) && !s.m_skip_heuristics) = true then
      guessSelectionCandidates d filtered aWhere else filtered) =
      candidatesAfterHeuristics d s aWhere filtered := rfl
  rw [hgd]
  generalize candidatesAfterHeuristics d s aWhere filtered = guessed
  unfold chooserDismissed
  have hm := SelectionMenu_spec d (RunAction
    { s with m_selection := s.m_selection.ClearReferencePoint }
    (.selectionMenu guessed)) guessed evs
  have hc := SelectionMenu_cancelled d (RunAction
    { s with m_selection := s.m_selection.ClearReferencePoint }
    (.selectionMenu guessed)) guessed evs
  by_cases hlen : guessed.length > 1
  · rw [if_pos hlen]
    cases hdm : (doSelectionMenu d (RunAction
        { s with m_selection := s.m_selection.ClearReferencePoint }
        (.selectionMenu guessed)) guessed evs).2.2.1 with
    | false =>
      rw [hdm] at hc
      rw [if_pos (by rw [hc]; rfl)]
      have e1 := congrArg (fun z => z.m_selection.m_items) hm.1
      have e2 := congrArg ToolState.selectedFlag hm.1
      refine ⟨_, rfl, ?_, ?_⟩
      · intro _
        exact ⟨rfl, rfl, e1, e2⟩
      · intro h
        simp [hlen] at h
    | true =>
      rw [hdm] at hc
      rw [if_neg (by rw [hc]; simp)]
      refine ⟨_, rfl, ?_, ?_⟩
      · intro h
        simp at h
      · intro _
        exact SelectPoint_finish_flag _ _ _ _ _ _
  · rw [if_neg hlen]
    refine ⟨_, rfl, ?_, ?_⟩
    · intro h
      simp [hlen] at h
    · intro _
      exact SelectPoint_finish_flag _ _ _ _ _ _

/-- Witness of `SelectPoint_cancel_atomic`: a click on the pin 2 with the heuristics switched
off; the chooser gets no event and is dismissed. -/
theorem SelectPoint_cancel_atomic_witness :
    SelectPoint_filterLoop exampleFrame false
      (exampleFrame.Collect [] { x := 2, y := 0 }).length
      (exampleFrame.Collect [] { x := 2, y := 0 }) = some [1, 2] ∧
    chooserDismissed exampleFrame skipHeuristicsState
      (candidatesAfterHeuristics exampleFrame skipHeuristicsState { x := 2, y := 0 } [1, 2])
      [] = true ∧
    ∃ r, SelectPoint exampleFrame skipHeuristicsState { x := 2, y := 0 } [] (some false) false
        [] = some r ∧
      (chooserDismissed exampleFrame skipHeuristicsState
          (candidatesAfterHeuristics exampleFrame skipHeuristicsState { x := 2, y := 0 } [1, 2])
          [] = true →
        r.item = none ∧
        r.aSelectionCancelledFlag = (some false).map (fun _ => true) ∧
        r.tool.m_selection.m_items = skipHeuristicsState.m_selection.m_items ∧
        r.tool.selectedFlag = skipHeuristicsState.selectedFlag) ∧
      (chooserDismissed exampleFrame skipHeuristicsState
          (candidatesAfterHeuristics exampleFrame skipHeuristicsState { x := 2, y := 0 } [1, 2])
          [] = false →
        r.aSelectionCancelledFlag = some false) :=
  ⟨by decide, by decide,
   SelectPoint_cancel_atomic exampleFrame skipHeuristicsState { x := 2, y := 0 } []
     (some false) false [] [1, 2] (by decide)⟩

/-! ### Toggling -/

theorem select_published (d : SCH_FRAME) (s : ToolState) (y : ItemPtr) :
    (select d s y).published = s.published := by
  simp [select, highlight_eq, setModeFlags]

theorem unselect_published (d : SCH_FRAME) (s : ToolState) (y : ItemPtr) :
    (unselect d s y).published = s.published := by
  simp [unselect, unhighlight_eq, setModeFlags]

theorem clearSelection_published (d : SCH_FRAME) (s : ToolState) :
    (clearSelection d s).published =
      s.published ++ (if s.m_selection.m_items = [] then [] else [.ClearedEvent]) := by
  rw [clearSelection_eq]
  split <;> simp

/-- C15: `toggleSelection( item, force )` on a duplicate-free selection. If the SELECTED flag
of the item is set: the flag is cleared, the item is not a member afterwards, the membership
of every other item is unchanged and exactly one UnselectedEvent is published. Otherwise,
when additive mode is off the whole selection is cleared first (publishing a ClearedEvent if
it was not empty); then, if `force` or `selectable( item )` holds, the item is added, its
flag set and exactly one SelectedEvent published, and if neither holds nothing more happens.
So toggling an unselected, unselectable item without force in non-additive mode leaves the
selection empty and publishes no SelectedEvent. -/
theorem toggleSelection_spec (d : SCH_FRAME) (s : ToolState) (item : ItemPtr) (force : Bool)
    (hnodup : s.m_selection.m_items.Nodup) :
    (s.selectedFlag item = true →
      (toggleSelection d s item force).selectedFlag item = false ∧
      item ∉ (toggleSelection d s item force).m_selection.m_items ∧
      (∀ x, x ≠ item →
        (x ∈ (toggleSelection d s item force).m_selection.m_items ↔
          x ∈ s.m_selection.m_items)) ∧
      (toggleSelection d s item force).published = s.published ++ [.UnselectedEvent]) ∧
    (s.selectedFlag item = false → (force || selectable d item false) = true →
      item ∈ (toggleSelection d s item force).m_selection.m_items ∧
      (toggleSelection d s item force).selectedFlag item = true ∧
      (s.m_additive = true →
        (∀ x, x ≠ item →
          (x ∈ (toggleSelection d s item force).m_selection.m_items ↔
            x ∈ s.m_selection.m_items)) ∧
        (toggleSelection d s item force).published = s.published ++ [.SelectedEvent]) ∧
      (s.m_additive = false →
        (toggleSelection d s item force).m_selection.m_items = [item] ∧
        (toggleSelection d s item force).published =
          s.published ++ (if s.m_selection.m_items = [] then [] else [.ClearedEvent]) ++
            [.SelectedEvent])) ∧
    (s.selectedFlag item = false → (force || selectable d item false) = false →
      (s.m_additive = true → toggleSelection d s item force = s) ∧
      (s.m_additive = false →
        toggleSelection d s item force = clearSelection d s ∧
        (toggleSelection d s item force).m_selection.m_items = [] ∧
        (toggleSelection d s item force).published =
          s.published ++ (if s.m_selection.m_items = [] then [] else [.ClearedEvent]))) := by
  have hi := toggleSelection_items d s item force
  refine ⟨?_, ?_, ?_⟩
  · intro hf
    rw [hi, if_pos hf]
    have ht : toggleSelection d s item force = ProcessEvent (unselect d s item) .UnselectedEvent := by
      unfold toggleSelection
      rw [if_pos hf]
    refine ⟨?_, ?_, ?_, ?_⟩
    · rw [ht, ProcessEvent_selectedFlag, selectedFlag_unselect]
      simp
    · intro hmem
      exact ((hnodup.mem_erase_iff).1 hmem).1 rfl
    · intro x hx
      exact List.mem_erase_of_ne hx
    · rw [ht]
      show (unselect d s item).published ++ [EVENTS.UnselectedEvent] = _
      rw [unselect_published]
  · intro hf hfs
    have hnf : ¬ s.selectedFlag item = true := by simp [hf]
    have ht : toggleSelection d s item force =
        ProcessEvent (select d (if (!s.m_additive) = true then clearSelection d s else s) item)
          .SelectedEvent := by
      unfold toggleSelection
      rw [if_neg hnf]
      simp only [hfs, if_true]
    rw [hi, if_neg hnf, if_pos hfs]
    refine ⟨?_, ?_, ?_, ?_⟩
    · split
      · exact (mem_Add _ _ _).2 (Or.inl rfl)
      · simp
    · rw [ht, ProcessEvent_selectedFlag, selectedFlag_select]
      simp
    · intro ha
      rw [if_pos ha]
      refine ⟨?_, ?_⟩
      · intro x hx
        rw [mem_Add]
        simp [hx]
      · rw [ht]
        show (select d _ item).published ++ [EVENTS.SelectedEvent] = _
        rw [select_published]
        simp [ha]
    · intro ha
      rw [if_neg (by simp [ha])]
      refine ⟨rfl, ?_⟩
      rw [ht]
      show (select d _ item).published ++ [EVENTS.SelectedEvent] = _
      rw [select_published]
      simp only [ha, Bool.not_false, if_true]
      rw [clearSelection_published]
  · intro hf hfs
    have hnf : ¬ s.selectedFlag item = true := by simp [hf]
    have ht : toggleSelection d s item force =
        (if (!s.m_additive) = true then clearSelection d s else s) := by
      unfold toggleSelection
      rw [if_neg hnf]
      simp only [hfs, Bool.false_eq_true, if_false]
    refine ⟨?_, ?_⟩
    · intro ha
      rw [ht, if_neg (by simp [ha])]
    · intro ha
      have ht2 : toggleSelection d s item force = clearSelection d s := by
        rw [ht, if_pos (by simp [ha])]
      refine ⟨ht2, ?_, ?_⟩
      · rw [ht2]
        exact clearSelection_items d s
      · rw [ht2]
        exact clearSelection_published d s

/-- Witness of `toggleSelection_spec`: toggling the selected wire 10. -/
theorem toggleSelection_spec_witness :
    twoWiresState.m_selection.m_items.Nodup ∧ twoWiresState.selectedFlag 10 = true ∧
    (toggleSelection exampleFrame twoWiresState 10 false).published =
      twoWiresState.published ++ [.UnselectedEvent] :=
  ⟨by decide, by decide,
   ((toggleSelection_spec exampleFrame twoWiresState 10 false (by decide)).1
      (by decide)).2.2.2⟩

/-! ### Selections on request -/

/-- C16 (the defect): `RequestSelection` removes a member by toggling it, which goes by the
SELECTED flag. With the pin 2 and its symbol 1 selected (both flagged) and a filter for wires
and busses, removing the symbol clears the flag of the pin, so the pin is then selected again
instead of removed: the trimmed selection is `[2]` where no member matches the filter. With
the wires 10 and 11 selected as well, the re-selection (additive mode being off) first clears
the container, and the loop then reads `GetItem( 1 )` of a one-element container. -/
theorem RequestSelection_trim_defect :
    pinAndSymbolState.m_selection.m_items = [2, 1] ∧
    (∀ x ∈ pinAndSymbolState.m_selection.m_items, pinAndSymbolState.selectedFlag x = true) ∧
    pinAndSymbolState.m_selection.m_items.filter
      (fun x => exampleFrame.IsType x wiresAndBusses) = [] ∧
    (RequestSelection exampleFrame pinAndSymbolState wiresAndBusses []).map
      (fun r => r.1.m_selection.m_items) = some [2] ∧
    wiresPinSymbolState.m_selection.m_items = [10, 11, 2, 1] ∧
    (∀ x ∈ wiresPinSymbolState.m_selection.m_items,
      wiresPinSymbolState.selectedFlag x = true) ∧
    wiresPinSymbolState.m_selection.m_items.filter
      (fun x => exampleFrame.IsType x wiresAndBusses) = [10, 11] ∧
    (RequestSelection exampleFrame wiresPinSymbolState wiresAndBusses []).isNone = true := by
  decide

/-! ### The drag decision -/

/-- C18 (the defect): the decision is taken on the pointer position of the drag event, not on
the drag origin. With the symbol 1 selected, whose bounding box inflated by the margin of 20
holds the point (165, 10) but not (175, 10): a drag that starts at (165, 10) and is delivered
at (175, 10) clears the selection and does not invoke the move tool, and a drag that starts
at (175, 10) and is delivered at (165, 10) invokes the move tool. -/
theorem drag_decision_uses_pointer_position :
    (exampleFrame.ToWorld { x := GRIP_MARGIN, y := GRIP_MARGIN }) = { x := 20, y := 20 } ∧
    ((exampleFrame.ViewBBox 1).Inflate 20 20).Contains { x := 165, y := 10 } = true ∧
    ((exampleFrame.ViewBBox 1).Inflate 20 20).Contains { x := 175, y := 10 } = false ∧
    (MainIteration exampleFrame (select exampleFrame emptyState 1)
      (dragAt { x := 165, y := 10 } { x := 175, y := 10 }) []).map
      (fun r => (r.1.m_selection.m_items, r.1.requests)) = some ([], []) ∧
    (MainIteration exampleFrame (select exampleFrame emptyState 1)
      (dragAt { x := 175, y := 10 } { x := 165, y := 10 }) []).map
      (fun r => (r.1.m_selection.m_items, r.1.requests)) =
        some ([1], [.invokeInteractiveEdit]) := by
  decide

/-! ### Selecting a connection -/

theorem foldl_candidates_items (d : SCH_FRAME) (p : ItemPtr → Bool) (x : ItemPtr) :
    ∀ (l : List ItemPtr) (s : ToolState),
      x ∈ (l.foldl (fun st item => if p item = true then select d st item else st)
        s).m_selection.m_items ↔ (x ∈ s.m_selection.m_items ∨ (x ∈ l ∧ p x = true)) := by
  intro l
  induction l with
  | nil => intro s; simp
  | cons y l ih =>
    intro s
    rw [List.foldl_cons, ih]
    by_cases hy : p y = true
    · rw [if_pos hy, items_select, mem_Add]
      constructor
      · rintro ((h | h) | h)
        · exact Or.inr ⟨by simp [h], by rw [h]; exact hy⟩
        · exact Or.inl h
        · exact Or.inr ⟨by simp [h.1], h.2⟩
      · rintro (h | ⟨h, h2⟩)
        · exact Or.inl (Or.inr h)
        · rcases List.mem_cons.1 h with h3 | h3
          · exact Or.inl (Or.inl h3)
          · exact Or.inr ⟨h3, h2⟩
    · rw [if_neg hy]
      constructor
      · rintro (h | h)
        · exact Or.inl h
        · exact Or.inr ⟨by simp [h.1], h.2⟩
      · rintro (h | ⟨h, h2⟩)
        · exact Or.inl h
        · rcases List.mem_cons.1 h with h3 | h3
          · rw [h3] at h2
            exact absurd h2 hy
          · exact Or.inr ⟨h3, h2⟩

theorem foldl_candidates_published (d : SCH_FRAME) (p : ItemPtr → Bool) :
    ∀ (l : List ItemPtr) (s : ToolState),
      (l.foldl (fun st item => if p item = true then select d st item else st) s).published =
        s.published := by
  intro l
  induction l with
  | nil => intro s; rfl
  | cons y l ih =>
    intro s
    rw [List.foldl_cons, ih]
    split
    · exact select_published d s y
    · rfl

theorem SelectConnection_after_request (d : SCH_FRAME) (s s1 : ToolState) (seg : ItemPtr)
    (evs rest : List TOOL_EVENT)
    (hreq : RequestSelection d s wiresAndBusses evs = some (s1, rest))
    (hitems : s1.m_selection.m_items = [seg]) :
    ∃ s2, SelectConnection d s evs = some (s2, rest) ∧
      (∀ x, x ∈ s2.m_selection.m_items ↔
        (x = seg ∨ (x ∈ d.GetDrawItems ∧ d.IsCandidate seg x = true))) ∧
      s2.published = s1.published ++
        (if 1 < s2.m_selection.m_items.length then [.SelectedEvent] else []) := by
  have hmem := fun x => foldl_candidates_items d (d.IsCandidate seg) x d.GetDrawItems s1
  have hpub := foldl_candidates_published d (d.IsCandidate seg) d.GetDrawItems s1
  unfold SelectConnection
  rw [hreq]
  simp only [SELECTION.Empty, SELECTION.Front, SELECTION.GetSize, hitems, List.isEmpty_cons,
    Bool.false_eq_true, if_false, List.head?_cons]
  split
  · rename_i hsz
    refine ⟨_, rfl, ?_, ?_⟩
    · intro x
      rw [ProcessEvent_selection, hmem x, hitems]
      simp
    · rw [ProcessEvent_selection, if_pos hsz]
      show _ ++ [EVENTS.SelectedEvent] = _
      rw [hpub]
  · rename_i hsz
    refine ⟨_, rfl, ?_, ?_⟩
    · intro x
      rw [hmem x, hitems]
      simp
    · rw [if_neg hsz, hpub]
      simp

theorem SelectPoint_item_some_published (d : SCH_FRAME) (s : ToolState) (aWhere : VECTOR2I)
    (aFilterList : List KICAD_T) (fl : Option Bool) (cl : Bool) (evs : List TOOL_EVENT)
    (r : SelectPointResult) (c : ItemPtr)
    (hr : SelectPoint d s aWhere aFilterList fl cl evs = some r) (hc : r.item = some c) :
    ∃ s1 : ToolState, s1.selectedFlag = s.selectedFlag ∧
      s1.m_selection.m_items = s.m_selection.m_items ∧ s1.m_additive = s.m_additive ∧
      s1.published = s.published ∧
      r.tool = toggleSelection d s1 c false ∧ selectable d c false = true := by
  have hsel := (SelectPoint_item_some d s aWhere aFilterList fl cl evs r c hr hc)
  obtain ⟨_, _, _, _, _, hselc⟩ := hsel
  unfold SelectPoint at hr
  simp only at hr
  cases hf : SelectPoint_filterLoop d cl (d.Collect aFilterList aWhere).length
      (d.Collect aFilterList aWhere) with
  | none => rw [hf] at hr; cases hr
  | some filtered =>
    rw [hf] at hr
    simp only at hr
    generalize (if (decide (filtered.length > 1) &&
          !s.m_skip_heuristics) = true then guessSelectionCandidates d filtered aWhere
          else filtered) = guessed at hr
    split at hr
    · have hm := SelectionMenu_spec d (RunAction
        { s with m_selection := s.m_selection.ClearReferencePoint }
        (.selectionMenu guessed)) guessed evs
      split at hr
      · rw [Option.some.injEq] at hr
        subst hr
        cases hc
      · rw [Option.some.injEq] at hr
        subst hr
        obtain ⟨_, h2⟩ := SelectPoint_finish_item _ _ _ _ _ _ _ hc
        have e1 := congrArg ToolState.selectedFlag hm.1
        have e2 := congrArg (fun z => z.m_selection.m_items) hm.1
        have e3 := congrArg ToolState.m_additive hm.1
        have e4 := congrArg ToolState.published hm.1
        refine ⟨_, ?_, ?_, ?_, ?_, h2, hselc⟩
        · exact e1
        · exact e2
        · exact e3
        · exact e4
    · rw [Option.some.injEq] at hr
      subst hr
      obtain ⟨_, h2⟩ := SelectPoint_finish_item _ _ _ _ _ _ _ hc
      refine ⟨_, ?_, ?_, ?_, ?_, h2, hselc⟩
      · rfl
      · rfl
      · rfl
      · rfl

/-- C17 (as amended): (1) when the wire or bus segment `seg` is the only member of the
selection, `SelectConnection` leaves the selection holding `seg` together with exactly the
items of the draw list that the connectivity marking flags CANDIDATE, and publishes one
SelectedEvent if that selection has more than one member and none otherwise; (2) when the
selection is empty and the point selection at the cursor resolves to the unselected segment
`seg`, the final selection is the same, the point selection publishes a SelectedEvent of its
own, and a second one follows if the selection has more than one member. -/
theorem SelectConnection_spec (d : SCH_FRAME) (s : ToolState) (seg : ItemPtr)
    (evs : List TOOL_EVENT) :
    (s.m_selection.m_items = [seg] → d.IsType seg wiresAndBusses = true →
      ∃ s2, SelectConnection d s evs = some (s2, evs) ∧
        (∀ x, x ∈ s2.m_selection.m_items ↔
          (x = seg ∨ (x ∈ d.GetDrawItems ∧ d.IsCandidate seg x = true))) ∧
        s2.published = s.published ++
          (if 1 < s2.m_selection.m_items.length then [.SelectedEvent] else [])) ∧
    (s.m_selection.m_items = [] → s.selectedFlag seg = false →
      ∀ r, SelectPoint d s (d.GetCursorPosition true) wiresAndBusses none false evs = some r →
        r.item = some seg →
        ∃ s2, SelectConnection d s evs = some (s2, r.events) ∧
          (∀ x, x ∈ s2.m_selection.m_items ↔
            (x = seg ∨ (x ∈ d.GetDrawItems ∧ d.IsCandidate seg x = true))) ∧
          s2.published = s.published ++ [.SelectedEvent] ++
            (if 1 < s2.m_selection.m_items.length then [.SelectedEvent] else [])) := by
  constructor
  · intro hitems htype
    have hreq : RequestSelection d s wiresAndBusses evs = some (s, evs) := by
      unfold RequestSelection
      simp [SELECTION.Empty, SELECTION.GetSize, SELECTION.GetItem, hitems,
        RequestSelection_trimLoop, htype]
    exact SelectConnection_after_request d s s seg evs evs hreq hitems
  · intro hempty hflag r hr hc
    obtain ⟨s1, e1, e2, e3, e4, e5, e6⟩ :=
      SelectPoint_item_some_published d s _ _ _ _ _ r seg hr hc
    have hcs : clearSelection d s = s := by
      rw [clearSelection_eq, if_pos hempty]
    have hreq : RequestSelection d s wiresAndBusses evs =
        some ({ r.tool with m_selection := r.tool.m_selection.SetIsHover true }, r.events) := by
      unfold RequestSelection
      simp only [SELECTION.Empty, hempty, List.isEmpty_nil, if_true]
      rw [hcs, hr]
    have hnodup : s1.m_selection.m_items.Nodup := by
      rw [e2, hempty]
      exact List.nodup_nil
    have hts := toggleSelection_spec d s1 seg false hnodup
    have hf1 : s1.selectedFlag seg = false := by rw [e1]; exact hflag
    have hsel : (false || selectable d seg false) = true := by simp [e6]
    have hit : r.tool.m_selection.m_items = [seg] := by
      rw [e5, toggleSelection_items, if_neg (by simp [hf1]), if_pos hsel]
      split
      · simp [SELECTION.Add, e2, hempty]
      · rfl
    have hpub : r.tool.published = s.published ++ [.SelectedEvent] := by
      rw [e5]
      cases ha : s1.m_additive with
      | true => rw [((hts.2.1 hf1 hsel).2.2.1 ha).2, e4]
      | false =>
        rw [((hts.2.1 hf1 hsel).2.2.2 ha).2, e4, e2, hempty]
        simp
    obtain ⟨s2, h1, h2, h3⟩ := SelectConnection_after_request d s
      { r.tool with m_selection := r.tool.m_selection.SetIsHover true } seg evs r.events hreq hit
    refine ⟨s2, h1, h2, ?_⟩
    rw [h3]
    show r.tool.published ++ _ = _
    rw [hpub]

/-- C17 fails as stated: with the isolated wire 20 as the only selected item no SelectedEvent
is published at all; and with an empty selection and the cursor on the wire 10 of a run of
four wires, the four wires end up selected and two SelectedEvents are published. -/
theorem SelectConnection_notifications :
    (select exampleFrame emptyState 20).m_selection.m_items = [20] ∧
    (SelectConnection exampleFrame (select exampleFrame emptyState 20) []).map
      (fun r => (r.1.m_selection.m_items, r.1.published)) = some ([20], []) ∧
    (SelectConnection exampleFrame emptyState []).map
      (fun r => (r.1.m_selection.m_items, r.1.published)) =
        some ([10, 11, 12, 13], [.SelectedEvent, .SelectedEvent]) := by
  decide

theorem unselect_isHover (d : SCH_FRAME) (s : ToolState) (y : ItemPtr) :
    (unselect d s y).m_selection.m_isHover = s.m_selection.m_isHover := by
  rw [items_unselect]
  rfl

theorem trimLoop_result (d : SCH_FRAME) (fl : List KICAD_T) :
    ∀ (n : Nat) (s : ToolState), n ≤ s.m_selection.m_items.length →
      s.m_selection.m_items.Nodup →
      (∀ x ∈ s.m_selection.m_items.take n, s.selectedFlag x = true) →
      (∀ x ∈ s.m_selection.m_items.take n, d.IsType x fl = false →
        ∀ y ∈ s.m_selection.m_items.take n, y ≠ x → y ∉ subElements d x) →
      ∃ s1, RequestSelection_trimLoop d fl n s = some s1 ∧
        s1.m_selection.m_items =
          (s.m_selection.m_items.take n).filter (fun x => d.IsType x fl) ++
            s.m_selection.m_items.drop n ∧
        s1.m_selection.m_isHover = s.m_selection.m_isHover ∧
        (∀ y, s1.selectedFlag y = true → s.selectedFlag y = true) ∧
        (∀ x ∈ s.m_selection.m_items.take n, d.IsType x fl = false →
          s1.selectedFlag x = false) := by
  intro n
  induction n with
  | zero =>
    intro s _ _ _ _
    exact ⟨s, rfl, by simp, rfl, fun _ h => h, by simp⟩
  | succ i ih =>
    intro s hlen hnodup hflag hown
    have hi : i < s.m_selection.m_items.length := by omega
    have hci : s.m_selection.m_items[i]? = some s.m_selection.m_items[i] :=
      List.getElem?_eq_getElem hi
    have htake : s.m_selection.m_items.take (i + 1) =
        s.m_selection.m_items.take i ++ [s.m_selection.m_items[i]] := by
      rw [List.take_succ, hci]
      rfl
    have hdrop : s.m_selection.m_items.drop i =
        s.m_selection.m_items[i] :: s.m_selection.m_items.drop (i + 1) :=
      List.drop_eq_getElem_cons hi
    have hlt : (s.m_selection.m_items.take i).length = i := by
      rw [List.length_take]
      omega
    have hsub : ∀ x ∈ s.m_selection.m_items.take i, x ∈ s.m_selection.m_items.take (i + 1) := by
      intro x hx
      rw [htake]
      exact List.mem_append_left _ hx
    have hlast : s.m_selection.m_items[i] ∈ s.m_selection.m_items.take (i + 1) := by
      rw [htake]
      exact List.mem_append_right _ (List.mem_singleton_self _)
    have hnotin : ∀ x ∈ s.m_selection.m_items.take i, x ≠ s.m_selection.m_items[i] := by
      have hsplit : s.m_selection.m_items.take i ++
          (s.m_selection.m_items[i] :: s.m_selection.m_items.drop (i + 1)) =
          s.m_selection.m_items := by
        rw [← hdrop]
        exact List.take_append_drop i _
      have hnd := hnodup
      rw [← hsplit, List.nodup_append] at hnd
      intro x hx heq
      exact hnd.2.2 hx (by rw [heq]; exact List.mem_cons_self _ _)
    rw [RequestSelection_trimLoop]
    simp only [SELECTION.GetItem]
    rw [hci]
    dsimp only
    by_cases ht : d.IsType s.m_selection.m_items[i] fl = true
    · rw [if_neg (by simp [ht])]
      obtain ⟨s1, h1, h2, h3, h4, h5⟩ := ih s (by omega) hnodup
        (fun x hx => hflag x (hsub x hx))
        (fun x hx hxt y hy hyx => hown x (hsub x hx) hxt y (hsub y hy) hyx)
      refine ⟨s1, h1, ?_, h3, h4, ?_⟩
      · rw [h2, htake, List.filter_append, hdrop]
        simp [ht]
      · intro x hx hxt
        rw [htake] at hx
        rcases List.mem_append.1 hx with h | h
        · exact h5 x h hxt
        · simp only [List.mem_singleton] at h
          rw [h, ht] at hxt
          cases hxt
    · simp only [Bool.not_eq_true] at ht
      rw [if_pos (by simp [ht])]
      have hfi : s.selectedFlag s.m_selection.m_items[i] = true := hflag _ hlast
      have htog : toggleSelection d s s.m_selection.m_items[i] false =
          ProcessEvent (unselect d s s.m_selection.m_items[i]) .UnselectedEvent := by
        unfold toggleSelection
        rw [if_pos hfi]
      have hitems : (toggleSelection d s s.m_selection.m_items[i] false).m_selection.m_items =
          s.m_selection.m_items.eraseIdx i := by
        rw [htog, ProcessEvent_selection, items_unselect]
        exact hnodup.erase_getElem i hi
      have he_take : (s.m_selection.m_items.eraseIdx i).take i = s.m_selection.m_items.take i := by
        rw [List.eraseIdx_eq_take_drop_succ]
        exact List.take_left' hlt
      have he_drop : (s.m_selection.m_items.eraseIdx i).drop i =
          s.m_selection.m_items.drop (i + 1) := by
        rw [List.eraseIdx_eq_take_drop_succ]
        exact List.drop_left' hlt
      have hflag1 : ∀ y, (toggleSelection d s s.m_selection.m_items[i] false).selectedFlag y =
          if y = s.m_selection.m_items[i] ∨ y ∈ subElements d s.m_selection.m_items[i] then false
          else s.selectedFlag y := by
        intro y
        rw [htog, ProcessEvent_selectedFlag, selectedFlag_unselect]
      obtain ⟨s1, h1, h2, h3, h4, h5⟩ := ih (toggleSelection d s s.m_selection.m_items[i] false)
        (by rw [hitems, List.length_eraseIdx, if_pos hi]; omega)
        (by rw [hitems, List.eraseIdx_eq_take_drop_succ]
            exact hnodup.sublist (by
              rw [← List.eraseIdx_eq_take_drop_succ]
              exact List.eraseIdx_sublist _ _))
        (by
          rw [hitems, he_take]
          intro x hx
          rw [hflag1, if_neg]
          · exact hflag x (hsub x hx)
          · rintro (h | h)
            · exact hnotin x hx h
            · exact hown _ hlast ht x (hsub x hx) (hnotin x hx) h)
        (by
          rw [hitems, he_take]
          exact fun x hx hxt y hy hyx => hown x (hsub x hx) hxt y (hsub y hy) hyx)
      rw [hitems, he_take, he_drop] at h2
      rw [hitems, he_take] at h5
      refine ⟨s1, h1, ?_, ?_, ?_, ?_⟩
      · rw [h2, htake, List.filter_append]
        simp [ht]
      · rw [h3, htog, ProcessEvent_selection]
        exact unselect_isHover d s _
      · intro y hy
        have := h4 y hy
        rw [hflag1] at this
        split at this
        · cases this
        · exact this
      · intro x hx hxt
        rw [htake] at hx
        rcases List.mem_append.1 hx with h | h
        · exact h5 x h hxt
        · simp only [List.mem_singleton] at h
          cases hv : s1.selectedFlag x with
          | false => rfl
          | true =>
            have := h4 x hv
            rw [hflag1, if_pos (Or.inl h)] at this
            cases this

theorem RequestSelection_trims (d : SCH_FRAME) (s : ToolState) (fl : List KICAD_T)
    (evs : List TOOL_EVENT)
    (hne : s.m_selection.m_items ≠ []) (hnodup : s.m_selection.m_items.Nodup)
    (hflag : ∀ x ∈ s.m_selection.m_items, s.selectedFlag x = true)
    (hown : ∀ x ∈ s.m_selection.m_items, d.IsType x fl = false →
      ∀ y ∈ s.m_selection.m_items, y ≠ x → y ∉ subElements d x) :
    ∃ s1, RequestSelection d s fl evs = some (s1, evs) ∧
      s1.m_selection.m_items = s.m_selection.m_items.filter (fun x => d.IsType x fl) ∧
      s1.m_selection.m_isHover = s.m_selection.m_isHover ∧
      (∀ x ∈ s.m_selection.m_items, d.IsType x fl = false → s1.selectedFlag x = false) := by
  obtain ⟨s1, h1, h2, h3, _, h5⟩ := trimLoop_result d fl s.m_selection.m_items.length s
    (le_refl _) hnodup (by simpa using hflag) (by simpa using hown)
  refine ⟨s1, ?_, ?_, h3, ?_⟩
  · unfold RequestSelection
    rw [if_neg (by simp [SELECTION.Empty, hne])]
    simp only [SELECTION.GetSize]
    rw [h1]
  · simpa using h2
  · simpa using h5

/-! ### The chooser -/

theorem brightenedFlag_highlight (d : SCH_FRAME) (s : ToolState) (x : ItemPtr) (g : Bool)
    (y : ItemPtr) :
    (highlight d s x .BRIGHTENED g).brightenedFlag y =
      if y = x ∨ y ∈ subElements d x then true else s.brightenedFlag y := by
  have := modeFlag_highlight d s x .BRIGHTENED .BRIGHTENED g y
  simpa [modeFlag] using this

theorem brightenedFlag_unhighlight (d : SCH_FRAME) (s : ToolState) (x : ItemPtr) (g : Bool)
    (y : ItemPtr) :
    (unhighlight d s x .BRIGHTENED g).brightenedFlag y =
      if y = x ∨ y ∈ subElements d x then false else s.brightenedFlag y := by
  have := modeFlag_unhighlight d s x .BRIGHTENED .BRIGHTENED g y
  simpa [modeFlag] using this

theorem unhighlight_current_brightened (d : SCH_FRAME) (b0 : ItemPtr → Bool) (s : ToolState)
    (cur : Option ItemPtr)
    (hinv : ∀ y, s.brightenedFlag y = true →
      b0 y = true ∨ ∃ c0, cur = some c0 ∧ (y = c0 ∨ y ∈ subElements d c0)) :
    ∀ y, (match cur with
        | some c0 => unhighlight d s c0 .BRIGHTENED false
        | none => s).brightenedFlag y = true → b0 y = true := by
  intro y hy
  cases cur with
  | none =>
    rcases hinv y hy with h | ⟨c0, h, _⟩
    · exact h
    · cases h
  | some c0 =>
    simp only [brightenedFlag_unhighlight] at hy
    split at hy
    · cases hy
    · rename_i hn
      rcases hinv y hy with h | ⟨c1, h, h2⟩
      · exact h
      · cases h
        exact absurd h2 hn

theorem doSelectionMenuLoop_brightened (d : SCH_FRAME) (l : List ItemPtr) (limit : Nat)
    (b0 : ItemPtr → Bool) :
    ∀ (evs : List TOOL_EVENT) (s : ToolState) (cur : Option ItemPtr),
      (∀ y, s.brightenedFlag y = true →
        b0 y = true ∨ ∃ c0, cur = some c0 ∧ (y = c0 ∨ y ∈ subElements d c0)) →
      ∀ y, (doSelectionMenuLoop d l limit s cur evs).1.brightenedFlag y = true →
        b0 y = true ∨ ∃ c0, (doSelectionMenuLoop d l limit s cur evs).2.1 = some c0 ∧
          (y = c0 ∨ y ∈ subElements d c0) := by
  intro evs
  induction evs with
  | nil =>
    intro s cur hinv
    exact hinv
  | cons evt rest ih =>
    intro s cur hinv
    have hun := unhighlight_current_brightened d b0 s cur hinv
    simp only [doSelectionMenuLoop]
    split
    · split
      · split
        · rename_i c1 _
          apply ih
          intro y hy
          rw [brightenedFlag_highlight] at hy
          split at hy
          · rename_i hg
            exact Or.inr ⟨c1, rfl, hg⟩
          · exact Or.inl (hun y hy)
        · apply ih
          intro y hy
          exact Or.inl (hun y hy)
      · apply ih
        intro y hy
        exact Or.inl (hun y hy)
    · intro y hy
      exact Or.inl (hun y hy)
    · exact ih s cur hinv

theorem doSelectionMenuLoop_within_limit (d : SCH_FRAME) (l : List ItemPtr) (limit : Nat) :
    ∀ (evs : List TOOL_EVENT) (s : ToolState) (cur : Option ItemPtr),
      (∀ e ∈ evs, ∀ i : Int, e.kind = .ContextMenuChoice (some i) → i ≤ (limit : Int)) →
      (∀ c0, cur = some c0 → c0 ∈ l.take limit) →
      ∀ c0, (doSelectionMenuLoop d l limit s cur evs).2.1 = some c0 → c0 ∈ l.take limit := by
  intro evs
  induction evs with
  | nil =>
    intro s cur _ hcur
    exact hcur
  | cons evt rest ih =>
    intro s cur hids hcur
    have hrest : ∀ e ∈ rest, ∀ i : Int, e.kind = .ContextMenuChoice (some i) → i ≤ (limit : Int) :=
      fun e he => hids e (List.mem_cons_of_mem _ he)
    have hin : ∀ (i : Int) (c0 : ItemPtr), 0 < i → i ≤ (limit : Int) →
        l[(i - 1).toNat]? = some c0 → c0 ∈ l.take limit := by
      intro i c0 h1 h2 h3
      have hlt : (i - 1).toNat < limit := by omega
      rw [← List.getElem?_take_of_lt hlt] at h3
      exact List.getElem?_mem h3
    simp only [doSelectionMenuLoop]
    split
    · rename_i id hk
      split
      · rename_i hid
        split
        · rename_i c1 hc1
          exact ih _ (some c1) hrest (fun c0 h0 => by cases h0; exact hin id c1 hid.1 hid.2 hc1)
        · exact ih _ none hrest (fun c0 h0 => by cases h0)
      · exact ih _ none hrest (fun c0 h0 => by cases h0)
    · rename_i id hk
      intro c0 hc0
      simp only at hc0
      cases id with
      | none => simp at hc0
      | some i =>
        simp only at hc0
        split at hc0
        · rename_i hpos
          exact hin i c0 hpos (hids evt (List.mem_cons_self _ _) i hk) hc0
        · cases hc0
    · exact ih s cur hrest hcur

/-- C21 (as amended): for a candidate list none of whose items, and none of whose items'
pins, fields or sheet-pins, is brightened at entry, and for any sequence of events in which
every menu choice carries the id of a menu entry (at most min(MAX_SELECT_ITEM_IDS, count)):
if `doSelectionMenu` returns true, the collector holds exactly one item, one of the first
min(MAX_SELECT_ITEM_IDS, count) original candidates; if it returns false, the collector is
unchanged and `SelectionMenu` sets its cancelled flag; at exit no candidate and no pin, field
or sheet-pin of a candidate is brightened (no item at all is brightened that was not at
entry), and the SELECTED flag of every item is as it was. -/
theorem doSelectionMenu_exit (d : SCH_FRAME) (s : ToolState) (l : List ItemPtr)
    (evs : List TOOL_EVENT)
    (hentry : ∀ c0 ∈ l, s.brightenedFlag c0 = false ∧
      ∀ y ∈ subElements d c0, s.brightenedFlag y = false)
    (hids : ∀ e ∈ evs, ∀ i : Int, e.kind = .ContextMenuChoice (some i) →
      i ≤ ((min d.MAX_SELECT_ITEM_IDS l.length : Nat) : Int)) :
    ((doSelectionMenu d s l evs).2.2.1 = true →
      ∃ c0 ∈ l.take (min d.MAX_SELECT_ITEM_IDS l.length),
        (doSelectionMenu d s l evs).2.1 = [c0]) ∧
    ((doSelectionMenu d s l evs).2.2.1 = false →
      (doSelectionMenu d s l evs).2.1 = l ∧
      (SelectionMenu d s { m_List := l, m_MenuCancelled := false } evs).2.1.m_MenuCancelled =
        true) ∧
    (∀ c0 ∈ l, (doSelectionMenu d s l evs).1.brightenedFlag c0 = false ∧
      ∀ y ∈ subElements d c0, (doSelectionMenu d s l evs).1.brightenedFlag y = false) ∧
    (∀ y, (doSelectionMenu d s l evs).1.brightenedFlag y = true → s.brightenedFlag y = true) ∧
    (doSelectionMenu d s l evs).1.selectedFlag = s.selectedFlag := by
  have hlim := doSelectionMenuLoop_within_limit d l (min d.MAX_SELECT_ITEM_IDS l.length) evs s
    none hids (fun c0 h0 => by cases h0)
  have hbr := doSelectionMenuLoop_brightened d l (min d.MAX_SELECT_ITEM_IDS l.length)
    s.brightenedFlag evs s none (fun y hy => Or.inl hy)
  have hmono : ∀ y, (doSelectionMenu d s l evs).1.brightenedFlag y = true →
      s.brightenedFlag y = true := by
    intro y hy
    unfold doSelectionMenu at hy
    simp only at hy
    split at hy
    · rename_i cur hcur
      rw [brightenedFlag_unhighlight] at hy
      split at hy
      · cases hy
      · rename_i hn
        rcases hbr y hy with h | ⟨c1, h, h2⟩
        · exact h
        · rw [hcur] at h
          cases h
          exact absurd h2 hn
    · rename_i hcur
      rcases hbr y hy with h | ⟨c1, h, _⟩
      · exact h
      · rw [hcur] at h
        cases h
  have hspec := doSelectionMenu_spec d s l evs
  have hoff : ∀ y, s.brightenedFlag y = false →
      (doSelectionMenu d s l evs).1.brightenedFlag y = false := by
    intro y hy
    cases hv : (doSelectionMenu d s l evs).1.brightenedFlag y with
    | false => rfl
    | true =>
      rw [hmono y hv] at hy
      cases hy
  have hsel : (doSelectionMenu d s l evs).1.selectedFlag = s.selectedFlag := by
    have h0 := hspec.1
    have h1 := congrArg ToolState.selectedFlag h0
    exact h1
  refine ⟨?_, ?_, ?_, hmono, hsel⟩
  · intro hret
    unfold doSelectionMenu at hret ⊢
    simp only at hret ⊢
    split
    · rename_i cur hcur
      exact ⟨cur, hlim cur hcur, rfl⟩
    · rename_i hcur
      rw [hcur] at hret
      cases hret
  · intro hret
    refine ⟨hspec.2.2 hret, ?_⟩
    rw [SelectionMenu_cancelled, hret]
    rfl
  · intro c0 hc0
    exact ⟨hoff c0 (hentry c0 hc0).1, fun y hy => hoff y ((hentry c0 hc0).2 y hy)⟩

/-- Witness for C21 (as amended): the chooser over the symbol 1 and the wire 10, updated on
entry 1 and then closed by choosing entry 2. -/
theorem doSelectionMenu_exit_witness :
    (∀ c0 ∈ [1, 10], emptyState.brightenedFlag c0 = false ∧
      ∀ y ∈ subElements exampleFrame c0, emptyState.brightenedFlag y = false) ∧
    (doSelectionMenu exampleFrame emptyState [1, 10]
      [menuUpdate 1, menuChoice (some 2)]).2.1 = [10] ∧
    (∀ c0 ∈ [1, 10], (doSelectionMenu exampleFrame emptyState [1, 10]
        [menuUpdate 1, menuChoice (some 2)]).1.brightenedFlag c0 = false ∧
      ∀ y ∈ subElements exampleFrame c0, (doSelectionMenu exampleFrame emptyState [1, 10]
        [menuUpdate 1, menuChoice (some 2)]).1.brightenedFlag y = false) := by
  have hentry : ∀ c0 ∈ [1, 10], emptyState.brightenedFlag c0 = false ∧
      ∀ y ∈ subElements exampleFrame c0, emptyState.brightenedFlag y = false := by decide
  have hids : ∀ e ∈ [menuUpdate 1, menuChoice (some 2)], ∀ i : Int,
      e.kind = .ContextMenuChoice (some i) →
      i ≤ ((min exampleFrame.MAX_SELECT_ITEM_IDS [1, 10].length : Nat) : Int) := by
    intro e he i hk
    simp only [List.mem_cons, List.mem_singleton, List.not_mem_nil, or_false] at he
    rcases he with rfl | rfl
    · simp [menuUpdate] at hk
    · simp only [menuChoice, EventKind.ContextMenuChoice.injEq, Option.some.injEq] at hk
      subst hk
      decide
  exact ⟨hentry, by decide,
    (doSelectionMenu_exit exampleFrame emptyState [1, 10]
      [menuUpdate 1, menuChoice (some 2)] hentry hids).2.2.1⟩

/-- C21 (counterexamples to the claim as written): with a chooser of at most two entries over
three wires, a menu choice with id 3 makes `doSelectionMenu` return true with the third
candidate, which is not among the first min(MAX_SELECT_ITEM_IDS, count) = 2; and for the
single candidate symbol 1, not brightened at entry but whose pin 2 is, the pin is still
brightened at exit. -/
theorem doSelectionMenu_exit_counterexample :
    ((doSelectionMenu smallMenuFrame emptyState [10, 11, 12] [menuChoice (some 3)]).2.2.1 = true ∧
      (doSelectionMenu smallMenuFrame emptyState [10, 11, 12] [menuChoice (some 3)]).2.1 = [12] ∧
      (∀ c0 ∈ [10, 11, 12], emptyState.brightenedFlag c0 = false) ∧
      min smallMenuFrame.MAX_SELECT_ITEM_IDS [10, 11, 12].length = 2 ∧
      12 ∉ [10, 11, 12].take (min smallMenuFrame.MAX_SELECT_ITEM_IDS [10, 11, 12].length)) ∧
    ((∀ c0 ∈ [1], pinBrightenedState.brightenedFlag c0 = false) ∧
      2 ∈ exampleFrame.GetPins 1 ∧
      (doSelectionMenu exampleFrame pinBrightenedState [1] []).2.2.1 = false ∧
      (doSelectionMenu exampleFrame pinBrightenedState [1] []).1.brightenedFlag 2 = true) := by
  decide

/-! ### Bounds of the collector reads in the filter loop -/

/-- C22 (failing input): for the collected list [wire 10, hidden pin 2] with aCheckLocked
set, the filter loop starts at index 1, finds the pin unselectable and removes it, which
leaves one item; the locked check then reads index 1 of the shortened list, which is past its
end, so the run faults. Without aCheckLocked the same list is filtered without a fault. -/
theorem filterLoop_reads_past_end :
    [10, 2][1]? = some 2 ∧
    selectable hiddenPinsFrame 2 false = false ∧
    ([10, 2] : List ItemPtr).eraseIdx 1 = [10] ∧
    (([10, 2] : List ItemPtr).eraseIdx 1)[1]? = none ∧
    SelectPoint_filterLoop hiddenPinsFrame true [10, 2].length [10, 2] = none ∧
    SelectPoint_filterLoop hiddenPinsFrame false [10, 2].length [10, 2] = some [10] := by
  decide

end SchSelection

/-! ## Theorems about the color value type -/

namespace KIGFX

namespace Double

theorem roundHalfEven_intCast (z : ℤ) : roundHalfEven (z : ℚ) = z := by
  simp [roundHalfEven]

theorem roundHalfEven_mono {a b : ℚ} (h : a ≤ b) : roundHalfEven a ≤ roundHalfEven b := by
  have hfl : ⌊a⌋ ≤ ⌊b⌋ := Int.floor_mono h
  have ha1 := Int.floor_le a
  have ha2 := Int.lt_floor_add_one a
  have hb1 := Int.floor_le b
  have hb2 := Int.lt_floor_add_one b
  rcases lt_or_eq_of_le hfl with hlt | heq
  · unfold roundHalfEven
    split_ifs <;> omega
  · unfold roundHalfEven
    rw [← heq]
    split_ifs <;> first | omega | (exfalso; linarith)

theorem roundHalfEven_sub_le (n : ℚ) : |(roundHalfEven n : ℚ) - n| ≤ 1 / 2 := by
  have h1 := Int.floor_le n
  have h2 := Int.lt_floor_add_one n
  unfold roundHalfEven
  rw [abs_le]
  split_ifs <;> push_cast <;> constructor <;> linarith

theorem exponent_ge (x : ℚ) : -1022 ≤ exponent x := le_max_right _ _

theorem ulp_pos (x : ℚ) : 0 < ulp x := zpow_pos (by norm_num) _

theorem lt_two_zpow_exponent {x : ℚ} (hx : 0 < x) : x < (2 : ℚ) ^ (exponent x + 1) := by
  have h := Int.lt_zpow_succ_log_self (R := ℚ) (b := 2) (by norm_num) x
  have h2 : ((2 : ℕ) : ℚ) ^ (Int.log 2 x + 1) ≤ (2 : ℚ) ^ (exponent x + 1) := by
    rw [Nat.cast_ofNat]
    apply zpow_le_zpow_right₀ (by norm_num)
    unfold exponent
    rw [abs_of_pos hx]
    have := le_max_left (Int.log 2 x) (-1022)
    omega
  exact lt_of_lt_of_le h h2

theorem exponent_eq {x : ℚ} {e : ℤ} (he : -1022 ≤ e) (h1 : (2 : ℚ) ^ e ≤ x)
    (h2 : x < (2 : ℚ) ^ (e + 1)) : exponent x = e := by
  have hx : 0 < x := lt_of_lt_of_le (zpow_pos (by norm_num) e) h1
  have hl : Int.log 2 x = e := by
    apply le_antisymm
    · have := (Int.lt_zpow_iff_log_lt (R := ℚ) (b := 2) (by norm_num) hx (x := e + 1)).1
        (by rw [Nat.cast_ofNat]; exact h2)
      omega
    · exact (Int.zpow_le_iff_le_log (R := ℚ) (b := 2) (by norm_num) hx).1
        (by rw [Nat.cast_ofNat]; exact h1)
  unfold exponent
  rw [abs_of_pos hx, hl]
  exact max_eq_left he

theorem two_zpow_exponent_le {x : ℚ} (hx : 0 < x) (hn : -1022 < exponent x) :
    (2 : ℚ) ^ exponent x ≤ x := by
  have he : exponent x = Int.log 2 x := by
    unfold exponent at hn ⊢
    rw [abs_of_pos hx] at hn ⊢
    rcases le_total (Int.log 2 x) (-1022) with h | h
    · rw [max_eq_right h] at hn
      omega
    · exact max_eq_left h
  rw [he]
  have := Int.zpow_log_le_self (R := ℚ) (b := 2) (by norm_num) hx
  rwa [Nat.cast_ofNat] at this

theorem exponent_mono {x y : ℚ} (hx : 0 < x) (h : x ≤ y) : exponent x ≤ exponent y := by
  unfold exponent
  rw [abs_of_pos hx, abs_of_pos (lt_of_lt_of_le hx h)]
  exact max_le_max (Int.log_mono_right hx h) (le_refl _)

theorem round_zero : round 0 = 0 := by
  simp [round, roundHalfEven]

theorem round_nonneg {x : ℚ} (hx : 0 ≤ x) : 0 ≤ round x := by
  unfold round
  apply mul_nonneg _ (le_of_lt (ulp_pos x))
  have h : roundHalfEven ((0 : ℤ) : ℚ) ≤ roundHalfEven (x / ulp x) :=
    roundHalfEven_mono (by
      rw [Int.cast_zero]
      exact div_nonneg hx (le_of_lt (ulp_pos x)))
  rw [roundHalfEven_intCast] at h
  exact_mod_cast h

theorem round_le_two_zpow {x : ℚ} (hx : 0 < x) : round x ≤ (2 : ℚ) ^ (exponent x + 1) := by
  have hu := ulp_pos x
  have hlt := lt_two_zpow_exponent hx
  have hsplit : (2 : ℚ) ^ (exponent x + 1) = ((2 ^ 53 : ℤ) : ℚ) * ulp x := by
    have e53 : ((2 ^ 53 : ℤ) : ℚ) = (2 : ℚ) ^ (53 : ℤ) := by norm_num
    unfold ulp
    rw [e53, ← zpow_add₀ (by norm_num)]
    congr 1
    ring
  have h : roundHalfEven (x / ulp x) ≤ roundHalfEven (((2 ^ 53 : ℤ) : ℚ)) :=
    roundHalfEven_mono (by
      rw [div_le_iff₀ hu, ← hsplit]
      exact le_of_lt hlt)
  rw [roundHalfEven_intCast] at h
  rw [hsplit]
  unfold round
  exact mul_le_mul_of_nonneg_right (by exact_mod_cast h) (le_of_lt hu)

theorem two_zpow_le_round {x : ℚ} (_hx : 0 < x) (h1 : (2 : ℚ) ^ exponent x ≤ x) :
    (2 : ℚ) ^ exponent x ≤ round x := by
  have hu := ulp_pos x
  have hsplit : (2 : ℚ) ^ (exponent x) = ((2 ^ 52 : ℤ) : ℚ) * ulp x := by
    have e52 : ((2 ^ 52 : ℤ) : ℚ) = (2 : ℚ) ^ (52 : ℤ) := by norm_num
    unfold ulp
    rw [e52, ← zpow_add₀ (by norm_num)]
    congr 1
    ring
  have h : roundHalfEven (((2 ^ 52 : ℤ) : ℚ)) ≤ roundHalfEven (x / ulp x) :=
    roundHalfEven_mono (by
      rw [le_div_iff₀ hu, ← hsplit]
      exact h1)
  rw [roundHalfEven_intCast] at h
  rw [hsplit]
  unfold round
  exact mul_le_mul_of_nonneg_right (by exact_mod_cast h) (le_of_lt hu)

theorem round_mono {x y : ℚ} (hx : 0 ≤ x) (h : x ≤ y) : round x ≤ round y := by
  rcases eq_or_lt_of_le hx with h0 | hpos
  · rw [← h0, round_zero]
    exact round_nonneg (le_trans hx h)
  · have hy : 0 < y := lt_of_lt_of_le hpos h
    rcases lt_or_eq_of_le (exponent_mono hpos h) with hlt | heq
    · have hn : -1022 < exponent y := lt_of_le_of_lt (exponent_ge x) hlt
      calc round x ≤ (2 : ℚ) ^ (exponent x + 1) := round_le_two_zpow hpos
        _ ≤ (2 : ℚ) ^ exponent y := zpow_le_zpow_right₀ (by norm_num) (by omega)
        _ ≤ round y := two_zpow_le_round hy (two_zpow_exponent_le hy hn)
    · have hu : ulp x = ulp y := by unfold ulp; rw [heq]
      unfold round
      rw [hu]
      have hm : roundHalfEven (x / ulp y) ≤ roundHalfEven (y / ulp y) :=
        roundHalfEven_mono (div_le_div_of_nonneg_right h (le_of_lt (ulp_pos y)))
      exact mul_le_mul_of_nonneg_right (by exact_mod_cast hm) (le_of_lt (ulp_pos y))

theorem round_sub_le (x : ℚ) : |round x - x| ≤ ulp x / 2 := by
  have hu := ulp_pos x
  have h := roundHalfEven_sub_le (x / ulp x)
  have e : round x - x = ((roundHalfEven (x / ulp x) : ℚ) - x / ulp x) * ulp x := by
    unfold round
    field_simp
  rw [e, abs_mul, abs_of_pos hu]
  calc |(roundHalfEven (x / ulp x) : ℚ) - x / ulp x| * ulp x ≤ 1 / 2 * ulp x :=
        mul_le_mul_of_nonneg_right h (le_of_lt hu)
    _ = ulp x / 2 := by ring

theorem round_eq {x : ℚ} {e : ℤ} (he : -1022 ≤ e) (h1 : (2 : ℚ) ^ e ≤ x)
    (h2 : x < (2 : ℚ) ^ (e + 1)) :
    round x = (roundHalfEven (x / (2 : ℚ) ^ (e - 52)) : ℚ) * (2 : ℚ) ^ (e - 52) := by
  unfold round ulp
  rw [exponent_eq he h1 h2]

theorem round_one : round 1 = 1 := by
  rw [round_eq (e := 0) (by norm_num) (by norm_num) (by norm_num)]
  have : (1 : ℚ) / (2 : ℚ) ^ ((0 : ℤ) - 52) = ((2 ^ 52 : ℤ) : ℚ) := by norm_num
  rw [this, roundHalfEven_intCast]
  norm_num


theorem roundHalfEven_of_lt {n : ℚ} (z : ℤ) (h1 : (z : ℚ) ≤ n) (h2 : n < z + 1 / 2) :
    roundHalfEven n = z := by
  have hf : ⌊n⌋ = z := Int.floor_eq_iff.2 ⟨h1, by linarith⟩
  unfold roundHalfEven
  rw [hf, if_pos (by linarith)]

theorem roundHalfEven_of_tie_even {n : ℚ} (z : ℤ) (h : n = z + 1 / 2) (he : z % 2 = 0) :
    roundHalfEven n = z := by
  have hf : ⌊n⌋ = z := Int.floor_eq_iff.2 ⟨by linarith, by linarith⟩
  unfold roundHalfEven
  rw [hf, if_neg (by linarith), if_neg (by linarith), if_pos he]

theorem round_le_one {x : ℚ} (hx : 0 ≤ x) (h : x ≤ 1) : round x ≤ 1 := by
  have := round_mono hx h
  rwa [round_one] at this

theorem ulp_le_of_lt_one {x : ℚ} (hx : 0 < x) (h : x < 1) : ulp x ≤ 1 / 2 ^ 53 := by
  have hl : Int.log 2 x < 0 :=
    (Int.lt_zpow_iff_log_lt (R := ℚ) (b := 2) (by norm_num) hx (x := 0)).1 (by simpa using h)
  have he : exponent x ≤ -1 := by
    unfold exponent
    rw [abs_of_pos hx]
    exact max_le (by omega) (by norm_num)
  have e53 : (1 : ℚ) / 2 ^ 53 = (2 : ℚ) ^ (-53 : ℤ) := by norm_num
  unfold ulp
  rw [e53]
  exact zpow_le_zpow_right₀ (by norm_num) (by omega)

theorem round_sub_le_unit {x : ℚ} (hx : 0 ≤ x) (h : x ≤ 1) : |round x - x| ≤ 1 / 2 ^ 54 := by
  rcases eq_or_lt_of_le hx with h0 | hpos
  · rw [← h0, round_zero]
    norm_num
  · rcases eq_or_lt_of_le h with h1 | hlt
    · rw [h1, round_one]
      norm_num
    · have := round_sub_le x
      have := ulp_le_of_lt_one hpos hlt
      have e : (1 : ℚ) / 2 ^ 54 = 1 / 2 ^ 53 / 2 := by norm_num
      rw [e]
      linarith

theorem round_one_add_half_ulp : round (1 + 1 / 2 ^ 53) = 1 := by
  rw [round_eq (e := 0) (by norm_num) (by norm_num) (by norm_num)]
  rw [roundHalfEven_of_tie_even (2 ^ 52) (by norm_num) (by norm_num)]
  norm_num

theorem round_le_one_of_le {x : ℚ} (hx : 0 ≤ x) (h : x ≤ 1 + 1 / 2 ^ 53) : round x ≤ 1 := by
  have := round_mono hx h
  rwa [round_one_add_half_ulp] at this

theorem brighten_component (x f : ℚ) (hx : 0 ≤ x ∧ x ≤ 1) (hf : 0 ≤ f ∧ f ≤ 1) :
    (0 ≤ add (mul x (sub 1 f)) f ∧ add (mul x (sub 1 f)) f ≤ 1) ∧
      x - 3 / 2 ^ 54 ≤ add (mul x (sub 1 f)) f := by
  unfold add mul sub
  have h1f : (0 : ℚ) ≤ 1 - f := by linarith [hf.2]
  have h1f1 : (1 : ℚ) - f ≤ 1 := by linarith [hf.1]
  have hs0 : 0 ≤ round (1 - f) := round_nonneg h1f
  have hs1 : round (1 - f) ≤ 1 := round_le_one h1f h1f1
  have hse := abs_le.1 (round_sub_le_unit h1f h1f1)
  have hp0 : 0 ≤ x * round (1 - f) := mul_nonneg hx.1 hs0
  have hp1 : x * round (1 - f) ≤ round (1 - f) := by nlinarith [hx.2]
  have hp2 : x * round (1 - f) ≤ 1 := le_trans hp1 hs1
  have hm0 : 0 ≤ round (x * round (1 - f)) := round_nonneg hp0
  have hme := abs_le.1 (round_sub_le_unit hp0 hp2)
  have hsum0 : 0 ≤ round (x * round (1 - f)) + f := add_nonneg hm0 hf.1
  have hsum1 : round (x * round (1 - f)) + f ≤ 1 + 1 / 2 ^ 53 := by
    have e : (1 : ℚ) / 2 ^ 53 = 1 / 2 ^ 54 + 1 / 2 ^ 54 := by norm_num
    rw [e]
    linarith [hme.2, hse.2]
  have hexact : x * (1 - f) - 1 / 2 ^ 54 ≤ x * round (1 - f) := by
    have : 0 ≤ (1 - x) * (round (1 - f) - (1 - f) + 1 / 2 ^ 54) :=
      mul_nonneg (by linarith [hx.2]) (by linarith [hse.1])
    nlinarith [hse.1]
  have hx1f : 0 ≤ (1 - x) * f := mul_nonneg (by linarith [hx.2]) hf.1
  have hlow : x - 1 / 2 ^ 53 ≤ round (x * round (1 - f)) + f := by
    have e : (1 : ℚ) / 2 ^ 53 = 1 / 2 ^ 54 + 1 / 2 ^ 54 := by norm_num
    rw [e]
    nlinarith [hme.1, hexact]
  refine ⟨⟨round_nonneg hsum0, round_le_one_of_le hsum0 hsum1⟩, ?_⟩
  rcases le_total (round (x * round (1 - f)) + f) 1 with hle | hge
  · have hfe := abs_le.1 (round_sub_le_unit hsum0 hle)
    have e : (3 : ℚ) / 2 ^ 54 = 1 / 2 ^ 53 + 1 / 2 ^ 54 := by norm_num
    rw [e]
    linarith [hfe.1, hlow]
  · have := round_mono (zero_le_one) hge
    rw [round_one] at this
    have e : (0 : ℚ) ≤ 3 / 2 ^ 54 := by norm_num
    linarith [hx.2]

theorem darken_component (x f : ℚ) (hx : 0 ≤ x ∧ x ≤ 1) (hf : 0 ≤ f ∧ f ≤ 1) :
    (0 ≤ mul x (sub 1 f) ∧ mul x (sub 1 f) ≤ 1) ∧ (isDouble x → mul x (sub 1 f) ≤ x) := by
  unfold mul sub
  have h1f : (0 : ℚ) ≤ 1 - f := by linarith [hf.2]
  have h1f1 : (1 : ℚ) - f ≤ 1 := by linarith [hf.1]
  have hs0 : 0 ≤ round (1 - f) := round_nonneg h1f
  have hs1 : round (1 - f) ≤ 1 := round_le_one h1f h1f1
  have hp0 : 0 ≤ x * round (1 - f) := mul_nonneg hx.1 hs0
  have hp1 : x * round (1 - f) ≤ x := by nlinarith [hx.1]
  refine ⟨⟨round_nonneg hp0, round_le_one hp0 (le_trans hp1 hx.2)⟩, ?_⟩
  intro hd
  have := round_mono hp0 hp1
  rwa [hd] at this

end Double

namespace COLOR4D

theorem ofComponents_some (x y z w : ℚ) (hx : 0 ≤ x ∧ x ≤ 1) (hy : 0 ≤ y ∧ y ≤ 1)
    (hz : 0 ≤ z ∧ z ≤ 1) (hw : 0 ≤ w ∧ w ≤ 1) :
    ofComponents x y z w = some { r := x, g := y, b := z, a := w } := by
  unfold ofComponents
  rw [if_neg (by simpa using hx), if_neg (by simpa using hy), if_neg (by simpa using hz),
    if_neg (by simpa using hw)]

/-- C19 (the defect): for white (r = g = b = 1) `GetBrightness` returns 1.003, which is
above 1. -/
theorem GetBrightness_white :
    GetBrightness { r := 1, g := 1, b := 1, a := 1 } = 1003 / 1000 ∧
    ¬ (GetBrightness { r := 1, g := 1, b := 1, a := 1 } ≤ 1) := by
  constructor <;> norm_num [GetBrightness]

theorem GetBrightness_range (c : COLOR4D) (hr : 0 ≤ c.r ∧ c.r ≤ 1) (hg : 0 ≤ c.g ∧ c.g ≤ 1)
    (hb : 0 ≤ c.b ∧ c.b ≤ 1) :
    0 ≤ c.GetBrightness ∧ c.GetBrightness ≤ 1003 / 1000 := by
  unfold GetBrightness
  constructor
  · have h1 : 0 ≤ c.r * 0.299 := mul_nonneg hr.1 (by norm_num)
    have h2 : 0 ≤ c.g * 0.587 := mul_nonneg hg.1 (by norm_num)
    have h3 : 0 ≤ c.b * 0.117 := mul_nonneg hb.1 (by norm_num)
    linarith
  · norm_num
    linarith [hr.2, hg.2, hb.2]

theorem Brightened_eq (c : COLOR4D) (f : ℚ) (hr : 0 ≤ c.r ∧ c.r ≤ 1) (hg : 0 ≤ c.g ∧ c.g ≤ 1)
    (hb : 0 ≤ c.b ∧ c.b ≤ 1) (ha : 0 ≤ c.a ∧ c.a ≤ 1) (hf : 0 ≤ f ∧ f ≤ 1) :
    c.Brightened f = some
      { r := Double.add (Double.mul c.r (Double.sub 1 f)) f,
        g := Double.add (Double.mul c.g (Double.sub 1 f)) f,
        b := Double.add (Double.mul c.b (Double.sub 1 f)) f, a := c.a } := by
  unfold Brightened
  rw [if_neg (by simpa using hf)]
  exact ofComponents_some _ _ _ _ (Double.brighten_component _ _ hr hf).1
    (Double.brighten_component _ _ hg hf).1 (Double.brighten_component _ _ hb hf).1 ha

theorem Darkened_eq (c : COLOR4D) (f : ℚ) (hr : 0 ≤ c.r ∧ c.r ≤ 1) (hg : 0 ≤ c.g ∧ c.g ≤ 1)
    (hb : 0 ≤ c.b ∧ c.b ≤ 1) (ha : 0 ≤ c.a ∧ c.a ≤ 1) (hf : 0 ≤ f ∧ f ≤ 1) :
    c.Darkened f = some
      { r := Double.mul c.r (Double.sub 1 f), g := Double.mul c.g (Double.sub 1 f),
        b := Double.mul c.b (Double.sub 1 f), a := c.a } := by
  unfold Darkened
  rw [if_neg (by simpa using hf)]
  exact ofComponents_some _ _ _ _ (Double.darken_component _ _ hr hf).1
    (Double.darken_component _ _ hg hf).1 (Double.darken_component _ _ hb hf).1 ha

/-- C20 (as amended): for a color whose four components are `double`s in [0, 1] and a factor
`f` in [0, 1], with the arithmetic done in `double` as the code does it, `Brightened f` and
`Darkened f` pass every assertion and return colors whose components are in [0, 1] again and
whose alpha is the receiver's; every RGB component of `Darkened f` is at most the original,
and every RGB component of `Brightened f` is at least the original less 3 * 2^-54, the
rounding errors of the three operations; `Brightened 0` and `Darkened 0` are the receiver,
`Brightened 1` has r = g = b = 1 and `Darkened 1` has r = g = b = 0. The receiver, a value,
is not modified. -/
theorem Brightened_Darkened_spec (c : COLOR4D) (f : ℚ)
    (hr : 0 ≤ c.r ∧ c.r ≤ 1) (hg : 0 ≤ c.g ∧ c.g ≤ 1) (hb : 0 ≤ c.b ∧ c.b ≤ 1)
    (ha : 0 ≤ c.a ∧ c.a ≤ 1) (hf : 0 ≤ f ∧ f ≤ 1)
    (dr : Double.isDouble c.r) (dg : Double.isDouble c.g) (db : Double.isDouble c.b) :
    (∃ cb, c.Brightened f = some cb ∧
      (0 ≤ cb.r ∧ cb.r ≤ 1) ∧ (0 ≤ cb.g ∧ cb.g ≤ 1) ∧ (0 ≤ cb.b ∧ cb.b ≤ 1) ∧
      (0 ≤ cb.a ∧ cb.a ≤ 1) ∧ cb.a = c.a ∧
      c.r - 3 / 2 ^ 54 ≤ cb.r ∧ c.g - 3 / 2 ^ 54 ≤ cb.g ∧ c.b - 3 / 2 ^ 54 ≤ cb.b) ∧
    (∃ cd, c.Darkened f = some cd ∧
      (0 ≤ cd.r ∧ cd.r ≤ 1) ∧ (0 ≤ cd.g ∧ cd.g ≤ 1) ∧ (0 ≤ cd.b ∧ cd.b ≤ 1) ∧
      (0 ≤ cd.a ∧ cd.a ≤ 1) ∧ cd.a = c.a ∧ cd.r ≤ c.r ∧ cd.g ≤ c.g ∧ cd.b ≤ c.b) ∧
    c.Brightened 0 = some c ∧ c.Darkened 0 = some c ∧
    c.Brightened 1 = some { r := 1, g := 1, b := 1, a := c.a } ∧
    c.Darkened 1 = some { r := 0, g := 0, b := 0, a := c.a } := by
  have h01 : (0 : ℚ) ≤ 0 ∧ (0 : ℚ) ≤ 1 := ⟨le_refl _, zero_le_one⟩
  have h11 : (0 : ℚ) ≤ 1 ∧ (1 : ℚ) ≤ 1 := ⟨zero_le_one, le_refl _⟩
  have hm0 : ∀ x : ℚ, Double.isDouble x → Double.mul x (Double.sub 1 0) = x := by
    intro x hx
    unfold Double.mul Double.sub
    rw [sub_zero, Double.round_one, mul_one]
    exact hx
  have hb0 : ∀ x : ℚ, Double.isDouble x →
      Double.add (Double.mul x (Double.sub 1 0)) 0 = x := by
    intro x hx
    rw [hm0 x hx]
    unfold Double.add
    rw [add_zero]
    exact hx
  have hm1 : ∀ x : ℚ, Double.mul x (Double.sub 1 1) = 0 := by
    intro x
    unfold Double.mul Double.sub
    rw [sub_self, Double.round_zero, mul_zero, Double.round_zero]
  have hb1 : ∀ x : ℚ, Double.add (Double.mul x (Double.sub 1 1)) 1 = 1 := by
    intro x
    rw [hm1 x]
    unfold Double.add
    rw [zero_add, Double.round_one]
  refine ⟨⟨_, Brightened_eq c f hr hg hb ha hf, (Double.brighten_component _ _ hr hf).1,
      (Double.brighten_component _ _ hg hf).1, (Double.brighten_component _ _ hb hf).1, ha, rfl,
      (Double.brighten_component _ _ hr hf).2, (Double.brighten_component _ _ hg hf).2,
      (Double.brighten_component _ _ hb hf).2⟩,
    ⟨_, Darkened_eq c f hr hg hb ha hf, (Double.darken_component _ _ hr hf).1,
      (Double.darken_component _ _ hg hf).1, (Double.darken_component _ _ hb hf).1, ha, rfl,
      (Double.darken_component _ _ hr hf).2 dr, (Double.darken_component _ _ hg hf).2 dg,
      (Double.darken_component _ _ hb hf).2 db⟩, ?_, ?_, ?_, ?_⟩
  · rw [Brightened_eq c 0 hr hg hb ha h01, hb0 _ dr, hb0 _ dg, hb0 _ db]
  · rw [Darkened_eq c 0 hr hg hb ha h01, hm0 _ dr, hm0 _ dg, hm0 _ db]
  · rw [Brightened_eq c 1 hr hg hb ha h11, hb1, hb1, hb1]
  · rw [Darkened_eq c 1 hr hg hb ha h11, hm1, hm1, hm1]

/-- Witness of `Brightened_Darkened_spec`: the color (1/2, 1/4, 0, 1) brightened by 1/2. -/
theorem Brightened_Darkened_spec_witness :
    ((0 : ℚ) ≤ 1 / 2 ∧ (1 / 2 : ℚ) ≤ 1) ∧
    Double.isDouble (1 / 2) ∧ Double.isDouble (1 / 4) ∧ Double.isDouble 0 ∧
    ∃ cb, Brightened { r := 1 / 2, g := 1 / 4, b := 0, a := 1 } (1 / 2) = some cb ∧
      (0 ≤ cb.r ∧ cb.r ≤ 1) ∧ (0 ≤ cb.g ∧ cb.g ≤ 1) ∧ (0 ≤ cb.b ∧ cb.b ≤ 1) ∧
      (0 ≤ cb.a ∧ cb.a ≤ 1) ∧ cb.a = 1 ∧
      (1 / 2 : ℚ) - 3 / 2 ^ 54 ≤ cb.r ∧ (1 / 4 : ℚ) - 3 / 2 ^ 54 ≤ cb.g ∧
      (0 : ℚ) - 3 / 2 ^ 54 ≤ cb.b :=
  have d2 : Double.isDouble (1 / 2) := by
    unfold Double.isDouble
    rw [Double.round_eq (e := -1) (by norm_num) (by norm_num) (by norm_num),
      Double.roundHalfEven_of_lt (2 ^ 52) (by norm_num) (by norm_num)]
    norm_num
  have d4 : Double.isDouble (1 / 4) := by
    unfold Double.isDouble
    rw [Double.round_eq (e := -2) (by norm_num) (by norm_num) (by norm_num),
      Double.roundHalfEven_of_lt (2 ^ 52) (by norm_num) (by norm_num)]
    norm_num
  ⟨by norm_num, d2, d4, Double.round_zero,
   (Brightened_Darkened_spec { r := 1 / 2, g := 1 / 4, b := 0, a := 1 } (1 / 2)
      (by norm_num) (by norm_num) (by norm_num) (by norm_num) (by norm_num)
      d2 d4 Double.round_zero).1⟩

/-- C20 fails as stated for the code, which computes in `double`: for the `double`s
r = g = b = 1 - 2^-53 and f = 5404319552844595 * 2^-54 (the `double` nearest to 0.3),
`Brightened f` returns r = g = b = 1 - 2^-52, which is below the original. The steps are
1.0 - f = 6305039478318694 * 2^-53 (a tie, rounded to even), r * that =
6305039478318693 * 2^-53 (rounded down) and the sum with f, 1 - 3 * 2^-54, a tie that is
rounded to the even neighbour 1 - 2^-52. -/
theorem Brightened_below_original :
    Double.isDouble (1 - 1 / 2 ^ 53) ∧ Double.isDouble (5404319552844595 / 2 ^ 54) ∧
    ((0 : ℚ) ≤ 1 - 1 / 2 ^ 53 ∧ (1 - 1 / 2 ^ 53 : ℚ) ≤ 1) ∧
    ((0 : ℚ) ≤ 5404319552844595 / 2 ^ 54 ∧ (5404319552844595 / 2 ^ 54 : ℚ) ≤ 1) ∧
    Brightened { r := 1 - 1 / 2 ^ 53, g := 1 - 1 / 2 ^ 53, b := 1 - 1 / 2 ^ 53, a := 1 }
        (5404319552844595 / 2 ^ 54) =
      some { r := 1 - 1 / 2 ^ 52, g := 1 - 1 / 2 ^ 52, b := 1 - 1 / 2 ^ 52, a := 1 } ∧
    (1 - 1 / 2 ^ 52 : ℚ) < 1 - 1 / 2 ^ 53 := by
  have dr : Double.isDouble (1 - 1 / 2 ^ 53) := by
    unfold Double.isDouble
    rw [Double.round_eq (e := -1) (by norm_num) (by norm_num) (by norm_num),
      Double.roundHalfEven_of_lt (2 ^ 53 - 1) (by norm_num) (by norm_num)]
    norm_num
  have df : Double.isDouble (5404319552844595 / 2 ^ 54) := by
    unfold Double.isDouble
    rw [Double.round_eq (e := -2) (by norm_num) (by norm_num) (by norm_num),
      Double.roundHalfEven_of_lt 5404319552844595 (by norm_num) (by norm_num)]
    norm_num
  have hs : Double.sub 1 (5404319552844595 / 2 ^ 54) = 6305039478318694 / 2 ^ 53 := by
    unfold Double.sub
    rw [Double.round_eq (e := -1) (by norm_num) (by norm_num) (by norm_num),
      Double.roundHalfEven_of_tie_even 6305039478318694 (by norm_num) (by norm_num)]
    norm_num
  have hm : Double.mul (1 - 1 / 2 ^ 53) (6305039478318694 / 2 ^ 53) =
      6305039478318693 / 2 ^ 53 := by
    unfold Double.mul
    rw [Double.round_eq (e := -1) (by norm_num) (by norm_num) (by norm_num),
      Double.roundHalfEven_of_lt 6305039478318693 (by norm_num) (by norm_num)]
    norm_num
  have hadd : Double.add (6305039478318693 / 2 ^ 53) (5404319552844595 / 2 ^ 54) =
      1 - 1 / 2 ^ 52 := by
    unfold Double.add
    rw [Double.round_eq (e := -1) (by norm_num) (by norm_num) (by norm_num),
      Double.roundHalfEven_of_tie_even 9007199254740990 (by norm_num) (by norm_num)]
    norm_num
  refine ⟨dr, df, by norm_num, by norm_num, ?_, by norm_num⟩
  rw [Brightened_eq _ _ (by norm_num) (by norm_num) (by norm_num) (by norm_num) (by norm_num)]
  simp only [hs, hm, hadd]

end COLOR4D

end KIGFX
